import Mathlib

/-!
Verification of the render-pipeline plan of `lichtenstein_server`
(src/src/render/Pipeline.cpp) against its specification.

The plan is a `std::map` from targets to renderables; targets and renderables
are shared objects mutated in place during conflict resolution, so the
embedding keeps an explicit heap of target objects and renderable buffer
sizes, with `Nat` ids standing for the pointer identities that key the map.
-/

namespace Render

/-- Group snapshot, from `DataStore::Group` (src/src/DataStore.h): an integer
id and an inclusive pixel range `start .. endIdx` (the source field is named
`end`, a reserved word here). -/
structure Group where
  id : Int
  start : Int
  endIdx : Int
  deriving Repr, DecidableEq

/-- Pixel count of a group: `(end - start) + 1` (DataStore.h, `numPixels`). -/
def Group.numPixels (g : Group) : Int := (g.endIdx - g.start) + 1

/-- State of a render-target object. `plain n` is a target that is not an
`IGroupContainer` (only its pixel count matters to the plan code);
`container m gs` is a GroupContainer. Modelled from the spec: the classes
`IGroupContainer`, `GroupTarget` and `MultiGroupTarget` are not under src/;
per spec section 3 a GroupContainer owns an ordered set of Group snapshots,
has an `isMutable()` flag, and `numPixels()` is the sum of its groups'
lengths. -/
inductive TargetObj where
  | plain (numPixels : Int)
  | container (isMut : Bool) (groups : List Group)
  deriving Repr, DecidableEq

/-- Group ids of a list of group snapshots. -/
def groupIds (gs : List Group) : List Int := gs.map Group.id

/-- Modelled from the spec: `IGroupContainer::contains(other)` is non-empty
intersection of group id sets. -/
def idsIntersect (a b : List Int) : Bool := a.any (fun x => b.contains x)

/-- Modelled from the spec: GroupContainer equality (`operator==`) is equality
of group id sets. -/
def idSetEq (a b : List Int) : Bool :=
  a.all (fun x => b.contains x) && b.all (fun x => a.contains x)

/-- Modelled from the spec: `getUnion(other, out)` computes, despite its name,
the intersection of the two id sets. -/
def idsInter (a b : List Int) : List Int := a.filter (fun x => b.contains x)

/-- Modelled from the spec: `removeGroup(id)` drops the group with that id
from the container. -/
def removeGroup (gs : List Group) (i : Int) : List Group :=
  gs.filter (fun g => g.id != i)

/-- The `for(const int id : intersection) c->removeGroup(id);` loop of
`Pipeline::add`. -/
def removeGroups (gs : List Group) (ids : List Int) : List Group :=
  ids.foldl removeGroup gs

/-- Target pixel count: the stored count for a plain target, the sum of the
groups' pixel counts for a container (spec section 3). -/
def TargetObj.numPixels : TargetObj → Int
  | .plain n => n
  | .container _ gs => (gs.map Group.numPixels).sum

/-- Association-list lookup keyed by object id. -/
def alookup {α : Type} (k : Nat) : List (Nat × α) → Option α
  | [] => none
  | (k', v) :: rest => if k = k' then some v else alookup k rest

/-- In-place mutation of the object with id `k` (no effect if absent, as a
C++ pointer write always finds its object). -/
def aupdate {α : Type} (k : Nat) (v : α) : List (Nat × α) → List (Nat × α)
  | [] => []
  | (k', v') :: rest =>
    if k = k' then (k', v) :: rest else (k', v') :: aupdate k v rest

/-- Target object denoted by id `tid` (dangling ids read as a plain target of
size 0; theorems carry presence hypotheses where it matters). -/
def targetAt (tgts : List (Nat × TargetObj)) (tid : Nat) : TargetObj :=
  (alookup tid tgts).getD (.plain 0)

/-- Group ids of the target with id `tid`; empty for non-containers. -/
def entryIds (tgts : List (Nat × TargetObj)) (tid : Nat) : List Int :=
  match targetAt tgts tid with
  | .plain _ => []
  | .container _ gs => groupIds gs

/-- Buffer size of the renderable with id `rid`. Modelled from the spec:
`IRenderable` is not under src/; per spec section 4.2 it owns a pixel buffer
whose length `resize(n)` sets. -/
def renderSize (rnds : List (Nat × Int)) (rid : Nat) : Int :=
  (alookup rid rnds).getD 0

/-- Errors thrown by the plan-mutation API of `Pipeline`:
`std::invalid_argument` for null arguments, `std::runtime_error` ("Unable to
add mapping") for an unresolvable conflict, and the `std::invalid_argument`
("No such target in render pipeline") thrown by `remove`. -/
inductive PlanError where
  | invalidArg
  | unresolvableConflict
  | notFound
  deriving Repr, DecidableEq

/-- The render pipeline's plan state: the `std::map<TargetPtr, RenderablePtr>`
as a list of `(target id, renderable id)` pairs sorted by key, plus the heaps
of target objects and renderable buffer sizes. Modelled from the spec: the
`RenderPlan` map type is declared in the missing Pipeline.h; it is keyed by
the shared pointers themselves (object identity), which is why `add` must
explicitly erase value-equal containers before inserting. -/
structure Pipeline where
  plan : List (Nat × Nat)
  targets : List (Nat × TargetObj)
  renders : List (Nat × Int)
  deriving Repr, DecidableEq

/-- `std::map` insertion (`this->plan[target] = renderable`): replace the
value at an existing key, otherwise insert at the key's ordered position. -/
def planInsert (k v : Nat) : List (Nat × Nat) → List (Nat × Nat)
  | [] => [(k, v)]
  | (k', v') :: rest =>
    if k < k' then (k, v) :: (k', v') :: rest
    else if k = k' then (k, v) :: rest
    else (k', v') :: planInsert k v rest

/-- State threaded through the conflict loop: remaining map entries and the
two heaps. -/
abbrev LoopSt :=
  List (Nat × Nat) × List (Nat × TargetObj) × List (Nat × Int)

/-- Prepend a surviving map entry to the outcome of the rest of the loop. -/
def consResult (e : Nat × Nat) : Except LoopSt LoopSt → Except LoopSt LoopSt
  | .ok (es, t, r) => .ok (e :: es, t, r)
  | .error (es, t, r) => .error (e :: es, t, r)

/-- Conflict-resolution loop of `Pipeline::add` (Pipeline.cpp lines 314-385),
iterating over the plan entries in map order with the incoming container's
group ids `inIds`. `.ok` is reaching the insertion point (either the loop ran
off the end, or the `goto beach` taken after erasing an id-set-equal entry);
`.error` is the throw on an immutable multi-group conflict, carrying the
state as mutated so far (the C++ mutates in place and does not roll back). -/
def addLoop (inIds : List Int) :
    List (Nat × Nat) → List (Nat × TargetObj) → List (Nat × Int) →
      Except LoopSt LoopSt
  | [], tgts, rnds => .ok ([], tgts, rnds)
  | (tid, rid) :: rest, tgts, rnds =>
    match targetAt tgts tid with
    | .plain _ => consResult (tid, rid) (addLoop inIds rest tgts rnds)
    | .container isMut gs =>
      let cIds := groupIds gs
      if idsIntersect cIds inIds then
        if idSetEq cIds inIds then
          .ok (rest, tgts, rnds)
        else if isMut then
          let gs' := removeGroups gs (idsInter cIds inIds)
          let tgts' := aupdate tid (TargetObj.container isMut gs') tgts
          let np := (TargetObj.container isMut gs').numPixels
          if np = 0 then
            addLoop inIds rest tgts' rnds
          else
            consResult (tid, rid) (addLoop inIds rest tgts' (aupdate rid np rnds))
        else if gs.length = 1 then
          addLoop inIds rest tgts rnds
        else
          .error ((tid, rid) :: rest, tgts, rnds)
      else
        consResult (tid, rid) (addLoop inIds rest tgts rnds)

/-- `Pipeline::add(renderable, target)` (Pipeline.cpp lines 298-398). Null
shared pointers are `none`. Returns the thrown error (if any) together with
the state after the call; on a throw the state keeps every in-place mutation
made before it. -/
def Pipeline.add (st : Pipeline) (renderable target : Option Nat) :
    Option PlanError × Pipeline :=
  match renderable, target with
  | none, _ => (some .invalidArg, st)
  | some _, none => (some .invalidArg, st)
  | some rid, some tid =>
    match targetAt st.targets tid with
    | .plain _ => (none, { st with plan := planInsert tid rid st.plan })
    | .container _ gs =>
      match addLoop (groupIds gs) st.plan st.targets st.renders with
      | .ok (es, ts, rs) => (none, ⟨planInsert tid rid es, ts, rs⟩)
      | .error (es, ts, rs) => (some .unresolvableConflict, ⟨es, ts, rs⟩)

/-- `Pipeline::remove(target)` (Pipeline.cpp lines 402-414): `std::map` find
and erase, both keyed by the target pointer itself. -/
def Pipeline.remove (st : Pipeline) (target : Option Nat) :
    Option PlanError × Pipeline :=
  match target with
  | none => (some .invalidArg, st)
  | some tid =>
    if st.plan.any (fun e => e.1 == tid) then
      (none, { st with plan := st.plan.filter (fun e => e.1 != tid) })
    else
      (some .notFound, st)

/-- The `timespec` passed to `nanosleep` by `Pipeline::sleep`. -/
structure TimeSpec where
  tvSec : Int
  tvNsec : Int
  deriving Repr, DecidableEq

/-- The sleep request built by `Pipeline::sleep` (Pipeline.cpp lines 216-231):
`tv_sec = 0` and `tv_nsec = fpsTimeNs - differenceNanos - sleepInaccuracy`,
i.e. target frame time minus elapsed frame time minus the bias. The
`nanosleep` call is made unconditionally with this request. -/
def sleepRequest (fpsTimeNs elapsedNs biasNs : Int) : TimeSpec :=
  ⟨0, fpsTimeNs - elapsedNs - biasNs⟩

/-- Modelled from POSIX `nanosleep` (an OS call, not repository code): the
call sleeps `tv_sec * 1e9 + tv_nsec` nanoseconds and returns that duration
when `tv_sec ≥ 0` and `0 ≤ tv_nsec < 1e9`; any other request fails with
`EINVAL` and performs no sleep at all (`none`). -/
def nanosleepNs (t : TimeSpec) : Option Int :=
  if 0 ≤ t.tvSec ∧ 0 ≤ t.tvNsec ∧ t.tvNsec < 1000000000 then
    some (t.tvSec * 1000000000 + t.tvNsec)
  else
    none

/-- Bias state of the pacer: `sleepInaccuracy` (the running mean, a double in
the source, exact rationals here) and `sleepInaccuracySamples`; `workerEntry`
initialises both to `0`. -/
structure SleepComp where
  sleepInaccuracy : ℚ
  sleepInaccuracySamples : ℕ
  deriving Repr, DecidableEq

/-- `Pipeline::compensateSleep(requested, actual)` (Pipeline.cpp lines
254-264): fold `difference = actual - requested` into the running mean
`newAvg = (oldAvg * n + difference) / (n + 1)` and bump the sample count. -/
def compensateSleep (s : SleepComp) (requested actual : ℚ) : SleepComp :=
  let difference := actual - requested
  let n : ℚ := s.sleepInaccuracySamples
  let newAvg := (s.sleepInaccuracy * n + difference) / (n + 1)
  ⟨newAvg, s.sleepInaccuracySamples + 1⟩

/-- The bias state after a startup (`bias = 0`, `samples = 0`) followed by one
`compensateSleep` per `(requested, actual)` sample. -/
def compensateRun (samples : List (ℚ × ℚ)) : SleepComp :=
  samples.foldl (fun s p => compensateSleep s p.1 p.2) ⟨0, 0⟩

/-- `Pipeline::terminate()` (Pipeline.cpp lines 71-81) acting on the
`shouldTerminate` flag: result is `(repeated-call error logged, new flag)`. -/
def pipelineTerminate (shouldTerminate : Bool) : Bool × Bool :=
  if shouldTerminate then (true, shouldTerminate) else (false, true)

/-- The static `Pipeline::sharedInstance`: `some flag` is a live instance
with its `shouldTerminate` flag, `none` is the null pointer. -/
structure SharedState where
  inst : Option Bool
  deriving Repr, DecidableEq

/-- `Pipeline::stop()` (Pipeline.cpp lines 37-40): call
`sharedInstance->terminate()` and null the shared instance. Calling it while
`sharedInstance` is null dereferences a null pointer, which is undefined
behaviour, modelled as `none`. -/
def pipelineStop (s : SharedState) : Option SharedState :=
  match s.inst with
  | none => none
  | some _ => some ⟨none⟩

/-- Plan keys strictly increasing, as in a `std::map` (representation
invariant of the embedding). -/
def sortedKeys : List (Nat × Nat) → Bool
  | [] => true
  | e :: rest => rest.all (fun e2 => e.1 < e2.1) && sortedKeys rest

/-- No two plan entries share a renderable object. -/
def nodupRids : List (Nat × Nat) → Bool
  | [] => true
  | e :: rest => rest.all (fun e2 => e.2 != e2.2) && nodupRids rest

/-- Every plan entry's target and renderable object exists in the heaps (C++
pointers are never dangling). -/
def heapWF (st : Pipeline) : Bool :=
  st.plan.all (fun e =>
    (alookup e.1 st.targets).isSome && (alookup e.2 st.renders).isSome)

/-- Spec section 8, property 2: every plan entry's renderable buffer has
exactly the target's pixel count. -/
def sizeCoherent (st : Pipeline) : Bool :=
  st.plan.all (fun e => renderSize st.renders e.2 == (targetAt st.targets e.1).numPixels)

/-- Spec section 8, property 3: no group id appears in two distinct
GroupContainer targets of the plan. -/
def plansDisjoint (tgts : List (Nat × TargetObj)) : List (Nat × Nat) → Bool
  | [] => true
  | e :: rest =>
    rest.all (fun e2 => !(idsIntersect (entryIds tgts e.1) (entryIds tgts e2.1))) &&
      plansDisjoint tgts rest

/-- A sequence of `Pipeline::add` calls (the state each call leaves behind,
whether or not it threw). -/
def addSeq (st : Pipeline) : List (Option Nat × Option Nat) → Pipeline
  | [] => st
  | op :: ops => addSeq (Pipeline.add st op.1 op.2).2 ops

/-! Concrete plan states used to refute claims. Group ids are small integers;
target ids 1.. and renderable ids 10.. stand for the object identities. -/

/-- C1 scenario: entry 1 is a mutable container `{1,2}`, entry 2 an immutable
container `{3,4}`; the incoming target 3 is a container `{1,3}`. -/
def c1Pre : Pipeline :=
  ⟨[(1, 10), (2, 11)],
   [(1, .container true [⟨1, 0, 4⟩, ⟨2, 5, 9⟩]),
    (2, .container false [⟨3, 0, 4⟩, ⟨4, 5, 9⟩]),
    (3, .container true [⟨1, 0, 4⟩, ⟨3, 0, 4⟩])],
   [(10, 10), (11, 10), (12, 10)]⟩

/-- State `Pipeline::add(12, 3)` leaves behind on `c1Pre`: before throwing on
entry 2, the loop already stripped group 1 from entry 1 and resized its
renderable. -/
def c1Post : Pipeline :=
  ⟨[(1, 10), (2, 11)],
   [(1, .container true [⟨2, 5, 9⟩]),
    (2, .container false [⟨3, 0, 4⟩, ⟨4, 5, 9⟩]),
    (3, .container true [⟨1, 0, 4⟩, ⟨3, 0, 4⟩])],
   [(10, 5), (11, 10), (12, 10)]⟩

/-- C2 scenario: entry 1 is a mutable container `{1,2}`; the incoming target
2 is a container `{2}` whose renderable already has the right size. -/
def c2Pre : Pipeline :=
  ⟨[(1, 10)],
   [(1, .container true [⟨1, 0, 4⟩, ⟨2, 5, 9⟩]), (2, .container true [⟨2, 5, 9⟩])],
   [(10, 10), (11, 5)]⟩

/-- `c2Pre` after a successful `add(11, 2)`: group 2 was removed from entry 1
and renderable 10 resized to 5. -/
def c2Mid : Pipeline :=
  ⟨[(1, 10), (2, 11)],
   [(1, .container true [⟨1, 0, 4⟩]), (2, .container true [⟨2, 5, 9⟩])],
   [(10, 5), (11, 5)]⟩

/-- `c2Mid` after `remove(2)`: the new entry is gone but entry 1 keeps its
shrunken target and resized renderable, so the original plan is not
restored. -/
def c2Post : Pipeline :=
  ⟨[(1, 10)],
   [(1, .container true [⟨1, 0, 4⟩]), (2, .container true [⟨2, 5, 9⟩])],
   [(10, 5), (11, 5)]⟩

/-- C3 and C6 scenario: entry 1 is a container `{1}` with the same id set as
the incoming target 3, and entry 2 is a mutable container `{1,2}` that also
conflicts with it. -/
def c3Pre : Pipeline :=
  ⟨[(1, 10), (2, 11)],
   [(1, .container true [⟨1, 0, 4⟩]),
    (2, .container true [⟨1, 0, 4⟩, ⟨2, 5, 9⟩]),
    (3, .container true [⟨1, 0, 4⟩])],
   [(10, 5), (11, 10), (12, 5)]⟩

/-- `c3Pre` after `add(12, 3)`: the id-set-equal entry 1 was erased and the
`goto beach` skipped entry 2, which still contains group 1. -/
def c3Post : Pipeline :=
  ⟨[(2, 11), (3, 12)],
   [(1, .container true [⟨1, 0, 4⟩]),
    (2, .container true [⟨1, 0, 4⟩, ⟨2, 5, 9⟩]),
    (3, .container true [⟨1, 0, 4⟩])],
   [(10, 5), (11, 10), (12, 5)]⟩

/-- Same state as `c3Pre`, kept separate for the C6 counterexample. -/
def c6Pre : Pipeline :=
  ⟨[(1, 10), (2, 11)],
   [(1, .container true [⟨1, 0, 4⟩]),
    (2, .container true [⟨1, 0, 4⟩, ⟨2, 5, 9⟩]),
    (3, .container true [⟨1, 0, 4⟩])],
   [(10, 5), (11, 10), (12, 5)]⟩

/-- `c6Pre` after one `add(12, 3)`. -/
def c6Mid : Pipeline :=
  ⟨[(2, 11), (3, 12)],
   [(1, .container true [⟨1, 0, 4⟩]),
    (2, .container true [⟨1, 0, 4⟩, ⟨2, 5, 9⟩]),
    (3, .container true [⟨1, 0, 4⟩])],
   [(10, 5), (11, 10), (12, 5)]⟩

/-- `c6Mid` after a second `add(12, 3)`: this time the loop reaches entry 2
and strips group 1 from it, so the second call changes the plan. -/
def c6Post : Pipeline :=
  ⟨[(2, 11), (3, 12)],
   [(1, .container true [⟨1, 0, 4⟩]),
    (2, .container true [⟨2, 5, 9⟩]),
    (3, .container true [⟨1, 0, 4⟩])],
   [(10, 5), (11, 5), (12, 5)]⟩

/-- C4 scenario: empty plan; incoming target 1 covers 3 pixels while
renderable 10 has a 5-pixel buffer. -/
def c4Pre : Pipeline := ⟨[], [(1, .container true [⟨1, 0, 2⟩])], [(10, 5)]⟩

/-- `c4Pre` after `add(10, 1)`: the new entry is inserted without resizing
its renderable. -/
def c4Post : Pipeline :=
  ⟨[(1, 10)], [(1, .container true [⟨1, 0, 2⟩])], [(10, 5)]⟩

/-- C10 scenario: target 2 is a distinct object whose group id set equals
that of the inserted target 1. -/
def c10St : Pipeline :=
  ⟨[(1, 10)],
   [(1, .container true [⟨5, 0, 4⟩]), (2, .container true [⟨5, 0, 4⟩])],
   [(10, 5)]⟩

/-- C1 counterexample: `add` fails with `UnresolvableConflict` on the
immutable two-group entry 2, but the plan is not left unchanged — the
earlier mutable entry 1 already lost group 1 and renderable 10 was resized
before the throw. -/
theorem unresolvableConflict_mutates_plan :
    Pipeline.add c1Pre (some 12) (some 3) = (some .unresolvableConflict, c1Post) ∧
    c1Post ≠ c1Pre := by decide

/-- C2 counterexample: `add(11, 2)` succeeds after stripping group 2 from
entry 1 and resizing renderable 10; the following `remove(2)` erases only the
new entry, so the plan does not return to `c2Pre`. -/
theorem add_remove_roundtrip_fails :
    Pipeline.add c2Pre (some 11) (some 2) = (none, c2Mid) ∧
    Pipeline.remove c2Mid (some 2) = (none, c2Post) ∧
    c2Post ≠ c2Pre := by decide

/-- C3 counterexample: the id-set-equal entry 1 is erased and `goto beach`
stops the iteration, so the remaining entry 2 is inserted past without being
examined: it still shares group 1 with the newly inserted target 3. -/
theorem identical_entry_stops_iteration :
    Pipeline.add c3Pre (some 12) (some 3) = (none, c3Post) ∧
    (2, 11) ∈ c3Post.plan ∧ (3, 12) ∈ c3Post.plan ∧
    idsIntersect (entryIds c3Post.targets 2) (entryIds c3Post.targets 3) = true := by
  decide

/-- C4 counterexample: with an empty (hence vacuously size-coherent) plan,
`add(10, 1)` succeeds without resizing the incoming renderable, so the new
entry violates `r.bufferSize() == t.numPixels()`. -/
theorem add_breaks_size_coherence :
    sizeCoherent c4Pre = true ∧
    Pipeline.add c4Pre (some 10) (some 1) = (none, c4Post) ∧
    sizeCoherent c4Post = false := by decide

/-- C6 counterexample: both `add(12, 3)` calls succeed, but the second one
reaches the conflicting entry 2 that the first call's `goto beach` skipped,
so `add; add` differs from a single `add`. -/
theorem add_not_idempotent :
    Pipeline.add c6Pre (some 12) (some 3) = (none, c6Mid) ∧
    Pipeline.add c6Mid (some 12) (some 3) = (none, c6Post) ∧
    c6Post ≠ c6Mid := by decide

/-- C7 counterexample: with a target frame time of 2 seconds (fps = 0.5), no
elapsed time and no bias, `requested = 2e9 > 0`, yet the unconditional
`nanosleep` call rejects `tv_nsec = 2e9` with `EINVAL` and no sleep is
performed. -/
theorem requested_sleep_not_performed :
    (0 : Int) < 2000000000 - 0 - 0 ∧
    nanosleepNs (sleepRequest 2000000000 0 0) = none := by decide

/-- C7 amended: `Pipeline::sleep` calls `nanosleep` unconditionally with
`tv_sec = 0` and `tv_nsec = requested = target - elapsed - bias`; the OS
sleeps exactly `requested` ns iff `0 ≤ requested < 1e9`, and otherwise the
call fails with `EINVAL` and no sleep occurs — in particular whenever
`requested` is negative. -/
theorem sleep_exactly_when_requested_in_range (fpsTimeNs elapsedNs biasNs : Int) :
    nanosleepNs (sleepRequest fpsTimeNs elapsedNs biasNs) =
      (if 0 ≤ fpsTimeNs - elapsedNs - biasNs ∧
          fpsTimeNs - elapsedNs - biasNs < 1000000000 then
        some (fpsTimeNs - elapsedNs - biasNs)
      else none) := by
  simp [nanosleepNs, sleepRequest]

/-- C9 counterexample: the first `stop()` nulls `sharedInstance`, so a second
`stop()` dereferences a null pointer (undefined behaviour, `none`) instead of
being a logged no-op. -/
theorem second_stop_dereferences_null :
    pipelineStop ⟨some false⟩ = some ⟨none⟩ ∧
    pipelineStop ⟨none⟩ = none := by decide

/-- C9 amended: it is `Pipeline::terminate()`, not `stop()`, whose repeated
call is a no-op apart from logging an error (the termination flag stays
set); a second `stop()` call dereferences the nulled shared instance. -/
theorem repeated_terminate_noop :
    pipelineTerminate true = (true, true) ∧
    pipelineStop ⟨none⟩ = none := by decide

/-- Folding `compensateSleep` over a sample list from any starting state adds
the sample count and accumulates the differences: the invariant
`bias * count = Σ (actual - requested)` is preserved exactly. -/
lemma compensateSleep_foldl (samples : List (ℚ × ℚ)) (s : SleepComp) :
    (samples.foldl (fun s p => compensateSleep s p.1 p.2) s).sleepInaccuracySamples
        = s.sleepInaccuracySamples + samples.length ∧
    (samples.foldl (fun s p => compensateSleep s p.1 p.2) s).sleepInaccuracy *
        ((s.sleepInaccuracySamples + samples.length : ℕ) : ℚ)
      = s.sleepInaccuracy * (s.sleepInaccuracySamples : ℚ) +
          (samples.map (fun p => p.2 - p.1)).sum := by
  induction samples generalizing s with
  | nil => simp
  | cons p rest ih =>
    obtain ⟨h1, h2⟩ := ih (compensateSleep s p.1 p.2)
    have hn1 : ((s.sleepInaccuracySamples : ℚ) + 1) ≠ 0 := by positivity
    have hstep : (compensateSleep s p.1 p.2).sleepInaccuracy *
        ((compensateSleep s p.1 p.2).sleepInaccuracySamples : ℚ)
        = s.sleepInaccuracy * (s.sleepInaccuracySamples : ℚ) + (p.2 - p.1) := by
      simp only [compensateSleep]
      push_cast
      field_simp
    constructor
    · rw [List.foldl_cons, h1]
      simp only [compensateSleep, List.length_cons]
      omega
    · simp only [List.foldl_cons, List.map_cons, List.sum_cons]
      have hc : (s.sleepInaccuracySamples + (rest.length + 1) : ℕ)
          = ((compensateSleep s p.1 p.2).sleepInaccuracySamples + rest.length : ℕ) := by
        simp only [compensateSleep]
        omega
      rw [List.length_cons, hc, h2, hstep]
      ring

/-- C8: the pacer's bias is the exact arithmetic mean of every
`actual - requested` sample since startup — after folding any non-empty
sample list from the initial state `(0, 0)`, the sample counter equals the
number of samples and the stored bias is their mean. -/
theorem bias_is_running_mean (samples : List (ℚ × ℚ)) (h : samples ≠ []) :
    (compensateRun samples).sleepInaccuracySamples = samples.length ∧
    (compensateRun samples).sleepInaccuracy =
      (samples.map (fun p => p.2 - p.1)).sum / (samples.length : ℚ) := by
  obtain ⟨h1, h2⟩ := compensateSleep_foldl samples ⟨0, 0⟩
  simp only [compensateRun] at *
  refine ⟨by simpa using h1, ?_⟩
  have hlen : ((samples.length : ℕ) : ℚ) ≠ 0 := by
    simpa using List.length_pos.mpr h |>.ne'
  rw [eq_div_iff hlen]
  simpa using h2

/-- Witness for `bias_is_running_mean` at the two samples
`(requested, actual) = (10, 14)` and `(20, 26)`. -/
theorem bias_is_running_mean_witness :
    ([((10 : ℚ), (14 : ℚ)), (20, 26)] ≠ ([] : List (ℚ × ℚ))) ∧
    ((compensateRun [((10 : ℚ), (14 : ℚ)), (20, 26)]).sleepInaccuracySamples
        = [((10 : ℚ), (14 : ℚ)), (20, 26)].length ∧
      (compensateRun [((10 : ℚ), (14 : ℚ)), (20, 26)]).sleepInaccuracy =
        ([((10 : ℚ), (14 : ℚ)), (20, 26)].map (fun p => p.2 - p.1)).sum /
          (([((10 : ℚ), (14 : ℚ)), (20, 26)].length : ℕ) : ℚ)) :=
  ⟨by decide, bias_is_running_mean [((10 : ℚ), (14 : ℚ)), (20, 26)] (by decide)⟩

/-- C10: `Pipeline::remove` keys on target object identity. A target id
absent from the plan's keys is rejected with the not-found error and the
state is unchanged, even when its container's group id set equals that of an
inserted entry; a null target is rejected with the invalid-argument error;
and a target that is a key has exactly its entry erased. -/
theorem remove_keys_on_identity (st : Pipeline) (tid2 : Nat)
    (habs : ∀ e ∈ st.plan, e.1 ≠ tid2)
    (hval : ∃ e ∈ st.plan,
      idSetEq (entryIds st.targets tid2) (entryIds st.targets e.1) = true) :
    Pipeline.remove st (some tid2) = (some .notFound, st) ∧
    Pipeline.remove st none = (some .invalidArg, st) ∧
    ∀ tid rid, (tid, rid) ∈ st.plan →
      Pipeline.remove st (some tid) =
        (none, { st with plan := st.plan.filter (fun e => e.1 != tid) }) := by
  refine ⟨?_, rfl, ?_⟩
  · have hany : st.plan.any (fun e => e.1 == tid2) = false := by
      simp only [List.any_eq_false]
      intro e he
      simpa using habs e he
    simp only [Pipeline.remove, hany]
    rfl
  · intro tid rid hmem
    have hany : st.plan.any (fun e => e.1 == tid) = true :=
      List.any_eq_true.mpr ⟨(tid, rid), hmem, by simp⟩
    simp only [Pipeline.remove, hany]
    rfl

/-- Witness for `remove_keys_on_identity` on `c10St` with the value-equal but
identity-distinct target 2. -/
theorem remove_keys_on_identity_witness :
    ((∀ e ∈ c10St.plan, e.1 ≠ 2) ∧
      (∃ e ∈ c10St.plan,
        idSetEq (entryIds c10St.targets 2) (entryIds c10St.targets e.1) = true)) ∧
    (Pipeline.remove c10St (some 2) = (some .notFound, c10St) ∧
      Pipeline.remove c10St none = (some .invalidArg, c10St) ∧
      ∀ tid rid, (tid, rid) ∈ c10St.plan →
        Pipeline.remove c10St (some tid) =
          (none, { c10St with plan := c10St.plan.filter (fun e => e.1 != tid) })) :=
  ⟨⟨by decide, by decide⟩, remove_keys_on_identity c10St 2 (by decide) (by decide)⟩

/-! Association-list and id-set lemmas. -/

lemma alookup_aupdate_ne {α : Type} (k k2 : Nat) (v : α) (l : List (Nat × α))
    (h : k ≠ k2) : alookup k2 (aupdate k v l) = alookup k2 l := by
  induction l with
  | nil => rfl
  | cons e rest ih =>
    obtain ⟨k', v'⟩ := e
    simp only [aupdate]
    by_cases hk : k = k'
    · subst hk
      rw [if_pos rfl]
      simp only [alookup]
      rw [if_neg (fun he : k2 = k => h he.symm), if_neg (fun he : k2 = k => h he.symm)]
    · rw [if_neg hk]
      simp only [alookup]
      by_cases h2 : k2 = k'
      · rw [if_pos h2, if_pos h2]
      · rw [if_neg h2, if_neg h2, ih]

lemma alookup_aupdate_self {α : Type} (k : Nat) (v v0 : α) (l : List (Nat × α))
    (h : alookup k l = some v0) : alookup k (aupdate k v l) = some v := by
  induction l with
  | nil => simp [alookup] at h
  | cons e rest ih =>
    obtain ⟨k', v'⟩ := e
    by_cases hk : k = k'
    · subst hk
      simp [aupdate, alookup]
    · simp only [alookup, if_neg hk] at h
      simp only [aupdate, if_neg hk, alookup, if_neg hk]
      exact ih h

lemma idsIntersect_nil_right (a : List Int) : idsIntersect a [] = false := by
  simp [idsIntersect]

lemma idsIntersect_eq_false {a b : List Int} :
    idsIntersect a b = false ↔ ∀ x ∈ a, x ∉ b := by
  simp [idsIntersect]

lemma idsIntersect_eq_true {a b : List Int} :
    idsIntersect a b = true ↔ ∃ x ∈ a, x ∈ b := by
  simp [idsIntersect]

lemma idSetEq_eq_true {a b : List Int} :
    idSetEq a b = true ↔ (∀ x ∈ a, x ∈ b) ∧ ∀ x ∈ b, x ∈ a := by
  simp [idSetEq]

lemma idSetEq_refl (a : List Int) : idSetEq a a = true := by
  simp [idSetEq]

lemma idsIntersect_self {a : List Int} (h : a ≠ []) : idsIntersect a a = true := by
  cases a with
  | nil => exact absurd rfl h
  | cons x rest => simp [idsIntersect]

lemma idsIntersect_false_mono {a a2 b b2 : List Int}
    (h : idsIntersect a b = false) (ha : ∀ x ∈ a2, x ∈ a) (hb : ∀ x ∈ b2, x ∈ b) :
    idsIntersect a2 b2 = false := by
  rw [idsIntersect_eq_false] at h ⊢
  exact fun x hx hxb => h x (ha x hx) (hb x hxb)

/-- Disjointness transfers across an id-set-equal container. -/
lemma idsIntersect_false_of_idSetEq {a c i : List Int}
    (h : idsIntersect a c = false) (he : idSetEq c i = true) :
    idsIntersect a i = false := by
  rw [idsIntersect_eq_false] at h ⊢
  rw [idSetEq_eq_true] at he
  exact fun x hx hxi => h x hx (he.2 x hxi)

lemma removeGroups_eq_filter (ids : List Int) (gs : List Group) :
    removeGroups gs ids = gs.filter (fun g => !(ids.contains g.id)) := by
  induction ids generalizing gs with
  | nil => simp [removeGroups]
  | cons i rest ih =>
    show removeGroups (removeGroup gs i) rest = _
    rw [ih, removeGroup, List.filter_filter]
    apply List.filter_congr
    intro g _
    simp only [List.contains_cons]
    cases hgi : g.id == i <;> cases hgr : rest.contains g.id <;>
      simp [hgi, hgr] <;> simpa using hgi

/-- The groups surviving a mutable-conflict fix carry no id of the incoming
container. -/
lemma removeGroups_inter_disjoint (gs : List Group) (inIds : List Int) :
    idsIntersect (groupIds (removeGroups gs (idsInter (groupIds gs) inIds))) inIds
      = false := by
  rw [removeGroups_eq_filter, idsIntersect_eq_false]
  intro x hx hxin
  simp only [groupIds, List.mem_map] at hx
  obtain ⟨g, hg, rfl⟩ := hx
  rw [List.mem_filter] at hg
  have hgin : g.id ∉ idsInter (groupIds gs) inIds := by
    simpa using hg.2
  exact hgin (by
    simp only [idsInter, List.mem_filter]
    exact ⟨List.mem_map.mpr ⟨g, hg.1, rfl⟩, by simpa using hxin⟩)

/-- Surviving groups are a subset of the original container. -/
lemma removeGroups_subset (gs : List Group) (ids : List Int) :
    ∀ x ∈ groupIds (removeGroups gs ids), x ∈ groupIds gs := by
  rw [removeGroups_eq_filter]
  intro x hx
  simp only [groupIds, List.mem_map] at hx ⊢
  obtain ⟨g, hg, rfl⟩ := hx
  exact ⟨g, (List.mem_filter.mp hg).1, rfl⟩

lemma entryIds_congr {t1 t2 : List (Nat × TargetObj)} {tid : Nat}
    (h : alookup tid t1 = alookup tid t2) : entryIds t1 tid = entryIds t2 tid := by
  simp only [entryIds, targetAt, h]

/-! Plan-insertion lemmas (`std::map` insert). -/

lemma mem_planInsert {k v : Nat} {es : List (Nat × Nat)} {e : Nat × Nat}
    (h : e ∈ planInsert k v es) : e = (k, v) ∨ e ∈ es := by
  induction es with
  | nil => simpa [planInsert] using h
  | cons e' rest ih =>
    simp only [planInsert] at h
    split at h
    · rcases List.mem_cons.mp h with h | h
      · exact Or.inl h
      · exact Or.inr h
    · split at h
      · rcases List.mem_cons.mp h with h | h
        · exact Or.inl h
        · exact Or.inr (List.mem_cons_of_mem _ h)
      · rcases List.mem_cons.mp h with h | h
        · exact Or.inr (by simp [h])
        · rcases ih h with h' | h'
          · exact Or.inl h'
          · exact Or.inr (List.mem_cons_of_mem _ h')

lemma self_mem_planInsert (k v : Nat) (es : List (Nat × Nat)) :
    (k, v) ∈ planInsert k v es := by
  induction es with
  | nil => simp [planInsert]
  | cons e' rest ih =>
    simp only [planInsert]
    split
    · simp
    · split
      · simp
      · exact List.mem_cons_of_mem _ ih

lemma eraseP_planInsert {k v : Nat} {es : List (Nat × Nat)}
    (h : ∀ e ∈ es, e.1 ≠ k) :
    (planInsert k v es).eraseP (fun e => e.1 == k) = es := by
  induction es with
  | nil => simp [planInsert, List.eraseP]
  | cons e' rest ih =>
    obtain ⟨k', v'⟩ := e'
    have hk' : k' ≠ k := h (k', v') (List.mem_cons_self _ _)
    simp only [planInsert]
    split
    · simp [List.eraseP]
    · split
      · exact absurd (by omega) hk'
      · rw [List.eraseP_cons,
          show ((k', v').1 == k) = false by simpa using hk']
        simp only [cond_false]
        rw [ih (fun e he => h e (List.mem_cons_of_mem _ he))]

lemma filter_planInsert {k v : Nat} {es : List (Nat × Nat)}
    (h : ∀ e ∈ es, e.1 ≠ k) :
    (planInsert k v es).filter (fun e => e.1 != k) = es := by
  have hself : ∀ es2 : List (Nat × Nat), (∀ e ∈ es2, e.1 ≠ k) →
      es2.filter (fun e => e.1 != k) = es2 := by
    intro es2 h2
    exact List.filter_eq_self.mpr (fun e he => by simpa using h2 e he)
  induction es with
  | nil => simp [planInsert]
  | cons e' rest ih =>
    obtain ⟨k', v'⟩ := e'
    have hk' : k' ≠ k := h (k', v') (List.mem_cons_self _ _)
    have hrest : ∀ e ∈ rest, e.1 ≠ k := fun e he => h e (List.mem_cons_of_mem _ he)
    simp only [planInsert]
    split
    · rw [List.filter_cons, List.filter_cons]
      simp only [bne_self_eq_false, Bool.false_eq_true, if_false,
        show ((k', v').1 != k) = true by simpa using hk', if_true]
      rw [hself rest hrest]
    · split
      · exact absurd (by omega) hk'
      · rw [List.filter_cons,
          if_pos (show ((k', v').1 != k) = true by simpa using hk'), ih hrest]

lemma planInsert_idem (k v : Nat) (es : List (Nat × Nat)) :
    planInsert k v (planInsert k v es) = planInsert k v es := by
  induction es with
  | nil => simp [planInsert]
  | cons e' rest ih =>
    obtain ⟨k', v'⟩ := e'
    simp only [planInsert]
    split
    · simp [planInsert]
    · split
      · simp [planInsert]
      · simp only [planInsert]
        rw [if_neg (by omega), if_neg (by omega), ih]

lemma any_planInsert (k v : Nat) (es : List (Nat × Nat)) :
    (planInsert k v es).any (fun e => e.1 == k) = true :=
  List.any_eq_true.mpr ⟨(k, v), self_mem_planInsert k v es, by simp⟩

/-! Unfolding lemmas for the conflict loop, one per branch of the C++. -/

lemma idsIntersect_nil_left (b : List Int) : idsIntersect [] b = false := rfl

lemma idsIntersect_comm (a b : List Int) : idsIntersect a b = idsIntersect b a := by
  cases ha : idsIntersect a b <;> cases hb : idsIntersect b a <;> try rfl
  · rw [idsIntersect_eq_false] at ha
    rw [idsIntersect_eq_true] at hb
    obtain ⟨x, hxb, hxa⟩ := hb
    exact absurd hxb (ha x hxa)
  · rw [idsIntersect_eq_false] at hb
    rw [idsIntersect_eq_true] at ha
    obtain ⟨x, hxa, hxb⟩ := ha
    exact absurd hxa (hb x hxb)

lemma targetAt_eq_some {tgts : List (Nat × TargetObj)} {tid : Nat}
    {m : Bool} {gs : List Group} (h : targetAt tgts tid = .container m gs) :
    alookup tid tgts = some (.container m gs) := by
  unfold targetAt at h
  cases hl : alookup tid tgts with
  | none => rw [hl] at h; exact absurd h (by simp)
  | some v => rw [hl] at h; simp only [Option.getD_some] at h; rw [h]

lemma entryIds_of_container {tgts : List (Nat × TargetObj)} {tid : Nat}
    {m : Bool} {gs : List Group} (h : targetAt tgts tid = .container m gs) :
    entryIds tgts tid = groupIds gs := by
  simp [entryIds, h]

lemma entryIds_of_plain {tgts : List (Nat × TargetObj)} {tid : Nat}
    {n : Int} (h : targetAt tgts tid = .plain n) : entryIds tgts tid = [] := by
  simp [entryIds, h]

/-- Prepend already-examined surviving entries to a loop outcome. -/
def prependResult (pre : List (Nat × Nat)) :
    Except LoopSt LoopSt → Except LoopSt LoopSt
  | .ok (es, t, r) => .ok (pre ++ es, t, r)
  | .error (es, t, r) => .error (pre ++ es, t, r)

lemma prependResult_nil (r : Except LoopSt LoopSt) : prependResult [] r = r := by
  rcases r with ⟨es, t, rr⟩ | ⟨es, t, rr⟩ <;> rfl

lemma consResult_prepend (e : Nat × Nat) (pre : List (Nat × Nat))
    (r : Except LoopSt LoopSt) :
    consResult e (prependResult pre r) = prependResult (e :: pre) r := by
  rcases r with ⟨es, t, rr⟩ | ⟨es, t, rr⟩ <;> rfl

lemma addLoop_cons_clean {inIds : List Int} {tgts : List (Nat × TargetObj)}
    {rnds : List (Nat × Int)} {tid rid : Nat} {rest : List (Nat × Nat)}
    (h : idsIntersect (entryIds tgts tid) inIds = false) :
    addLoop inIds ((tid, rid) :: rest) tgts rnds =
      consResult (tid, rid) (addLoop inIds rest tgts rnds) := by
  cases htk : targetAt tgts tid with
  | plain n => simp [addLoop, htk]
  | container m gs =>
    rw [entryIds_of_container htk] at h
    simp [addLoop, htk, h]

lemma addLoop_cons_beach {inIds : List Int} {tgts : List (Nat × TargetObj)}
    {rnds : List (Nat × Int)} {tid rid : Nat} {rest : List (Nat × Nat)}
    {m : Bool} {gs : List Group} (htk : targetAt tgts tid = .container m gs)
    (hint : idsIntersect (groupIds gs) inIds = true)
    (heq : idSetEq (groupIds gs) inIds = true) :
    addLoop inIds ((tid, rid) :: rest) tgts rnds = .ok (rest, tgts, rnds) := by
  simp [addLoop, htk, hint, heq]

lemma addLoop_cons_throw {inIds : List Int} {tgts : List (Nat × TargetObj)}
    {rnds : List (Nat × Int)} {tid rid : Nat} {rest : List (Nat × Nat)}
    {gs : List Group} (htk : targetAt tgts tid = .container false gs)
    (hint : idsIntersect (groupIds gs) inIds = true)
    (heq : idSetEq (groupIds gs) inIds = false)
    (hlen : gs.length ≠ 1) :
    addLoop inIds ((tid, rid) :: rest) tgts rnds =
      .error ((tid, rid) :: rest, tgts, rnds) := by
  simp [addLoop, htk, hint, heq, hlen]

lemma addLoop_cons_singleton {inIds : List Int} {tgts : List (Nat × TargetObj)}
    {rnds : List (Nat × Int)} {tid rid : Nat} {rest : List (Nat × Nat)}
    {gs : List Group} (htk : targetAt tgts tid = .container false gs)
    (hint : idsIntersect (groupIds gs) inIds = true)
    (heq : idSetEq (groupIds gs) inIds = false)
    (hlen : gs.length = 1) :
    addLoop inIds ((tid, rid) :: rest) tgts rnds =
      addLoop inIds rest tgts rnds := by
  simp [addLoop, htk, hint, heq, hlen]

lemma addLoop_cons_mut {inIds : List Int} {tgts : List (Nat × TargetObj)}
    {rnds : List (Nat × Int)} {tid rid : Nat} {rest : List (Nat × Nat)}
    {gs : List Group} (htk : targetAt tgts tid = .container true gs)
    (hint : idsIntersect (groupIds gs) inIds = true)
    (heq : idSetEq (groupIds gs) inIds = false) :
    addLoop inIds ((tid, rid) :: rest) tgts rnds =
      (if (TargetObj.container true
            (removeGroups gs (idsInter (groupIds gs) inIds))).numPixels = 0 then
        addLoop inIds rest
          (aupdate tid
            (.container true (removeGroups gs (idsInter (groupIds gs) inIds))) tgts)
          rnds
      else
        consResult (tid, rid)
          (addLoop inIds rest
            (aupdate tid
              (.container true (removeGroups gs (idsInter (groupIds gs) inIds))) tgts)
            (aupdate rid
              (TargetObj.container true
                (removeGroups gs (idsInter (groupIds gs) inIds))).numPixels rnds))) := by
  simp [addLoop, htk, hint, heq]

lemma addLoop_skips_clean {inIds : List Int} {tgts : List (Nat × TargetObj)}
    {rnds : List (Nat × Int)} {pre : List (Nat × Nat)}
    (hpre : ∀ e ∈ pre, idsIntersect (entryIds tgts e.1) inIds = false)
    (rest : List (Nat × Nat)) :
    addLoop inIds (pre ++ rest) tgts rnds =
      prependResult pre (addLoop inIds rest tgts rnds) := by
  induction pre with
  | nil => rw [List.nil_append, prependResult_nil]
  | cons e pre' ih =>
    obtain ⟨tid, rid⟩ := e
    rw [List.cons_append, addLoop_cons_clean (hpre _ (List.mem_cons_self _ _)),
      ih (fun e2 he => hpre e2 (List.mem_cons_of_mem _ he)), consResult_prepend]

/-- C1 amended: when the first entry of the plan (in map iteration order) that
conflicts with the incoming GroupContainer is an immutable container of more
than one group, `add` fails with `UnresolvableConflict` and the Plan — entries,
targets and renderable sizes — is unchanged. (Per the counterexample, this
fails in general: entries examined before the conflicting one are already
mutated when the throw happens.) -/
theorem add_unresolvable_first_conflict (st : Pipeline) (rid tid : Nat)
    (m : Bool) (gs gs' : List Group) (pre post : List (Nat × Nat)) (tid' rid' : Nat)
    (hplan : st.plan = pre ++ (tid', rid') :: post)
    (hin : targetAt st.targets tid = .container m gs)
    (hpre : ∀ e ∈ pre, idsIntersect (entryIds st.targets e.1) (groupIds gs) = false)
    (hcur : targetAt st.targets tid' = .container false gs')
    (hint : idsIntersect (groupIds gs') (groupIds gs) = true)
    (hne : idSetEq (groupIds gs') (groupIds gs) = false)
    (hlen : gs'.length ≠ 1) :
    Pipeline.add st (some rid) (some tid) = (some .unresolvableConflict, st) := by
  simp only [Pipeline.add, hin]
  rw [hplan, addLoop_skips_clean hpre, addLoop_cons_throw hcur hint hne hlen]
  simp only [prependResult]
  rw [← hplan]

/-- Witness for `add_unresolvable_first_conflict`: a single-entry plan whose
entry is an immutable two-group container conflicting with the incoming
target. -/
theorem add_unresolvable_first_conflict_witness :
    (targetAt
        [(2, TargetObj.container false [⟨3, 0, 4⟩, ⟨4, 5, 9⟩]),
         (3, TargetObj.container true [⟨1, 0, 4⟩, ⟨3, 0, 4⟩])] 3 =
        .container true [⟨1, 0, 4⟩, ⟨3, 0, 4⟩]) ∧
    Pipeline.add
        ⟨[(2, 11)],
         [(2, .container false [⟨3, 0, 4⟩, ⟨4, 5, 9⟩]),
          (3, .container true [⟨1, 0, 4⟩, ⟨3, 0, 4⟩])],
         [(11, 10), (12, 10)]⟩ (some 12) (some 3) =
      (some .unresolvableConflict,
        ⟨[(2, 11)],
         [(2, .container false [⟨3, 0, 4⟩, ⟨4, 5, 9⟩]),
          (3, .container true [⟨1, 0, 4⟩, ⟨3, 0, 4⟩])],
         [(11, 10), (12, 10)]⟩) :=
  ⟨by decide,
    add_unresolvable_first_conflict _ 12 3 true
      [⟨1, 0, 4⟩, ⟨3, 0, 4⟩] [⟨3, 0, 4⟩, ⟨4, 5, 9⟩] [] [] 2 11
      rfl (by decide) (by decide) (by decide) (by decide) (by decide) (by decide)⟩

/-- C3 amended: when the first entry of the plan that conflicts with the
incoming GroupContainer has an identical group id set, that entry is erased
and the iteration stops (`goto beach`): the remaining entries are not
examined, the heaps are untouched, and `(target, renderable)` is inserted
immediately. -/
theorem add_identical_erases_and_stops (st : Pipeline) (rid tid : Nat)
    (m m' : Bool) (gs gs' : List Group) (pre post : List (Nat × Nat))
    (tid' rid' : Nat)
    (hplan : st.plan = pre ++ (tid', rid') :: post)
    (hin : targetAt st.targets tid = .container m gs)
    (hpre : ∀ e ∈ pre, idsIntersect (entryIds st.targets e.1) (groupIds gs) = false)
    (hcur : targetAt st.targets tid' = .container m' gs')
    (hint : idsIntersect (groupIds gs') (groupIds gs) = true)
    (heq : idSetEq (groupIds gs') (groupIds gs) = true) :
    Pipeline.add st (some rid) (some tid) =
      (none, ⟨planInsert tid rid (pre ++ post), st.targets, st.renders⟩) := by
  simp only [Pipeline.add, hin]
  rw [hplan, addLoop_skips_clean hpre, addLoop_cons_beach hcur hint heq]
  simp only [prependResult]

/-- Witness for `add_identical_erases_and_stops` on `c3Pre`: the id-set-equal
entry 1 is erased, entry 2 is left unexamined, and the new entry inserted. -/
theorem add_identical_erases_and_stops_witness :
    (targetAt c3Pre.targets 3 = .container true [⟨1, 0, 4⟩]) ∧
    Pipeline.add c3Pre (some 12) (some 3) =
      (none, ⟨planInsert 3 12 ([] ++ [(2, 11)]), c3Pre.targets, c3Pre.renders⟩) :=
  ⟨by decide,
    add_identical_erases_and_stops c3Pre 12 3 true true
      [⟨1, 0, 4⟩] [⟨1, 0, 4⟩] [] [(2, 11)] 1 10
      rfl (by decide) (by decide) (by decide) (by decide) (by decide)⟩

/-- Witness state for the amended C2: entry 1 is a container `{1}` disjoint
from the incoming container 2 (ids `{2}`). -/
def c2wSt : Pipeline :=
  ⟨[(1, 10)],
   [(1, .container true [⟨1, 0, 4⟩]), (2, .container true [⟨2, 5, 9⟩])],
   [(10, 5), (11, 5)]⟩

/-- C2 amended: `add(r, t); remove(t)` restores the original Plan provided
the target object is not already a plan key and shares no group id with any
existing entry's container (so conflict resolution mutates nothing). -/
theorem add_remove_roundtrip_when_disjoint (st : Pipeline) (rid tid : Nat)
    (hkey : ∀ e ∈ st.plan, e.1 ≠ tid)
    (hclean : ∀ e ∈ st.plan,
      idsIntersect (entryIds st.targets e.1) (entryIds st.targets tid) = false) :
    (Pipeline.add st (some rid) (some tid)).1 = none ∧
    Pipeline.remove (Pipeline.add st (some rid) (some tid)).2 (some tid) =
      (none, st) := by
  have hremove : Pipeline.remove
      ({ st with plan := planInsert tid rid st.plan } : Pipeline) (some tid) =
      (none, st) := by
    simp only [Pipeline.remove, any_planInsert, if_true, filter_planInsert hkey]
  cases htk : targetAt st.targets tid with
  | plain n =>
    simp only [Pipeline.add, htk]
    exact ⟨trivial, hremove⟩
  | container m gs =>
    rw [entryIds_of_container htk] at hclean
    have hloop : addLoop (groupIds gs) st.plan st.targets st.renders =
        .ok (st.plan, st.targets, st.renders) := by
      have h := @addLoop_skips_clean (groupIds gs) st.targets st.renders
        st.plan hclean []
      rw [List.append_nil] at h
      rw [h]
      simp [addLoop, prependResult]
    simp only [Pipeline.add, htk, hloop]
    exact ⟨trivial, hremove⟩

/-- Witness for `add_remove_roundtrip_when_disjoint`: adding the disjoint
container 2 to a one-entry plan and removing it restores the plan. -/
theorem add_remove_roundtrip_when_disjoint_witness :
    ((∀ e ∈ c2wSt.plan, e.1 ≠ 2) ∧
      (∀ e ∈ c2wSt.plan,
        idsIntersect (entryIds c2wSt.targets e.1) (entryIds c2wSt.targets 2)
          = false)) ∧
    ((Pipeline.add c2wSt (some 11) (some 2)).1 = none ∧
      Pipeline.remove (Pipeline.add c2wSt (some 11) (some 2)).2 (some 2) =
        (none, c2wSt)) :=
  ⟨⟨by decide, by decide⟩,
    add_remove_roundtrip_when_disjoint c2wSt 11 2 (by decide) (by decide)⟩

/-! The conflict loop and the plan invariants. `DisjointOn tgts es` is spec
section 8 property 3 restricted to a heap: the targets of distinct plan
entries share no group id. -/

/-- Pairwise disjointness of the entries' group id sets over a given target
heap. -/
def DisjointOn (tgts : List (Nat × TargetObj)) (es : List (Nat × Nat)) : Prop :=
  List.Pairwise
    (fun a b => idsIntersect (entryIds tgts a.1) (entryIds tgts b.1) = false) es

lemma plansDisjoint_iff (tgts : List (Nat × TargetObj)) (es : List (Nat × Nat)) :
    plansDisjoint tgts es = true ↔ DisjointOn tgts es := by
  induction es with
  | nil => simp [plansDisjoint, DisjointOn]
  | cons e rest ih =>
    simp [plansDisjoint, DisjointOn, List.pairwise_cons, List.all_eq_true,
      ih.symm]
    tauto

/-- If the loop throws, the state it leaves keeps a sub-plan of the original
entries, every surviving target's id set shrank or stayed, pairwise
disjointness is preserved, and targets of ids outside the plan are
untouched. -/
lemma addLoop_error_disjoint (inIds : List Int) :
    ∀ (es : List (Nat × Nat)) (tgts : List (Nat × TargetObj))
      (rnds : List (Nat × Int)) (es2 : List (Nat × Nat))
      (tgts2 : List (Nat × TargetObj)) (rnds2 : List (Nat × Int)),
    List.Pairwise (fun a b : Nat × Nat => a.1 ≠ b.1) es →
    DisjointOn tgts es →
    addLoop inIds es tgts rnds = .error (es2, tgts2, rnds2) →
    es2.Sublist es ∧
    (∀ e ∈ es2, ∀ x ∈ entryIds tgts2 e.1, x ∈ entryIds tgts e.1) ∧
    DisjointOn tgts2 es2 ∧
    (∀ k, (∀ e ∈ es, e.1 ≠ k) → alookup k tgts2 = alookup k tgts) := by
  intro es
  induction es with
  | nil =>
    intro tgts rnds es2 tgts2 rnds2 _ _ herr
    simp [addLoop] at herr
  | cons e rest ih =>
    intro tgts rnds es2 tgts2 rnds2 hkeys hdisj herr
    obtain ⟨tid, rid⟩ := e
    rw [List.pairwise_cons] at hkeys
    obtain ⟨hk1, hkeys'⟩ := hkeys
    rw [DisjointOn, List.pairwise_cons] at hdisj
    obtain ⟨hd1, hdisj'⟩ := hdisj
    -- the "skip this entry" continuation, shared by the plain and
    -- no-intersection branches
    have clean_case :
        addLoop inIds ((tid, rid) :: rest) tgts rnds =
          consResult (tid, rid) (addLoop inIds rest tgts rnds) →
        es2.Sublist ((tid, rid) :: rest) ∧
        (∀ e ∈ es2, ∀ x ∈ entryIds tgts2 e.1, x ∈ entryIds tgts e.1) ∧
        DisjointOn tgts2 es2 ∧
        (∀ k, (∀ e ∈ (tid, rid) :: rest, e.1 ≠ k) →
          alookup k tgts2 = alookup k tgts) := by
      intro hstep
      rw [hstep] at herr
      cases hrec : addLoop inIds rest tgts rnds with
      | ok x =>
        obtain ⟨a, b, c⟩ := x
        rw [hrec] at herr
        simp [consResult] at herr
      | error x =>
        obtain ⟨esE, tgtsE, rndsE⟩ := x
        rw [hrec] at herr
        simp only [consResult, Except.error.injEq, Prod.mk.injEq] at herr
        obtain ⟨hes2, htg2, hrn2⟩ := herr
        subst hes2 htg2 hrn2
        obtain ⟨h1, h2, h3, h4⟩ := ih tgts rnds esE tgtsE rndsE hkeys' hdisj' hrec
        have hframe_tid : alookup tid tgtsE = alookup tid tgts :=
          h4 tid (fun e2 he => (hk1 e2 he).symm)
        have hids_tid : entryIds tgtsE tid = entryIds tgts tid :=
          entryIds_congr hframe_tid
        refine ⟨h1.cons₂ _, ?_, ?_, ?_⟩
        · intro e he x hx
          rcases List.mem_cons.mp he with rfl | he'
          · rwa [hids_tid] at hx
          · exact h2 e he' x hx
        · rw [DisjointOn, List.pairwise_cons]
          refine ⟨?_, h3⟩
          intro e2 he2
          rw [hids_tid]
          exact idsIntersect_false_mono (hd1 e2 (h1.subset he2))
            (fun x hx => hx) (fun x hx => h2 e2 he2 x hx)
        · intro k hks
          exact h4 k (fun e2 he => hks e2 (List.mem_cons_of_mem _ he))
    cases htk : targetAt tgts tid with
    | plain n =>
      exact clean_case (addLoop_cons_clean
        (by rw [entryIds_of_plain htk]; exact idsIntersect_nil_left inIds))
    | container m gs =>
      cases hint : idsIntersect (groupIds gs) inIds with
      | false =>
        exact clean_case (addLoop_cons_clean
          (by rwa [entryIds_of_container htk]))
      | true =>
        cases heqq : idSetEq (groupIds gs) inIds with
        | true =>
          rw [addLoop_cons_beach htk hint heqq] at herr
          simp at herr
        | false =>
          cases m with
          | true =>
            rw [addLoop_cons_mut htk hint heqq] at herr
            have halk : alookup tid tgts = some (.container true gs) :=
              targetAt_eq_some htk
            set gs' := removeGroups gs (idsInter (groupIds gs) inIds) with hgs'
            set tgts' := aupdate tid (TargetObj.container true gs') tgts
              with htgts'
            have hframe2 : ∀ e2 ∈ rest, alookup e2.1 tgts' = alookup e2.1 tgts :=
              fun e2 he => alookup_aupdate_ne _ _ _ _ (hk1 e2 he)
            have hids2 : ∀ e2 ∈ rest, entryIds tgts' e2.1 = entryIds tgts e2.1 :=
              fun e2 he => entryIds_congr (hframe2 e2 he)
            have hdisj'' : DisjointOn tgts' rest := by
              refine List.Pairwise.imp_of_mem ?_ hdisj'
              intro a b ha hb hr
              rw [hids2 a ha, hids2 b hb]
              exact hr
            split at herr
            · obtain ⟨h1, h2, h3, h4⟩ :=
                ih tgts' rnds es2 tgts2 rnds2 hkeys' hdisj'' herr
              refine ⟨h1.cons _, ?_, h3, ?_⟩
              · intro e he x hx
                have he' : e ∈ rest := h1.subset he
                rw [← hids2 e he']
                exact h2 e he x hx
              · intro k hks
                have hktid : tid ≠ k := hks (tid, rid) (List.mem_cons_self _ _)
                rw [h4 k (fun e2 he => hks e2 (List.mem_cons_of_mem _ he))]
                exact alookup_aupdate_ne _ _ _ _ hktid
            · cases hrec : addLoop inIds rest tgts'
                (aupdate rid (TargetObj.container true gs').numPixels rnds) with
              | ok x =>
                obtain ⟨a, b, c⟩ := x
                rw [hrec] at herr
                simp [consResult] at herr
              | error x =>
                obtain ⟨esE, tgtsE, rndsE⟩ := x
                rw [hrec] at herr
                simp only [consResult, Except.error.injEq, Prod.mk.injEq] at herr
                obtain ⟨hes2, htg2, hrn2⟩ := herr
                subst hes2 htg2 hrn2
                obtain ⟨h1, h2, h3, h4⟩ :=
                  ih tgts' _ esE tgtsE rndsE hkeys' hdisj'' hrec
                have hlk' : alookup tid tgts' = some (.container true gs') :=
                  alookup_aupdate_self _ _ _ _ halk
                have hframe_tid : alookup tid tgtsE = some (.container true gs') := by
                  rw [h4 tid (fun e2 he => (hk1 e2 he).symm)]
                  exact hlk'
                have hidsE_tid : entryIds tgtsE tid = groupIds gs' := by
                  simp [entryIds, targetAt, hframe_tid]
                have hids_orig : entryIds tgts tid = groupIds gs :=
                  entryIds_of_container htk
                refine ⟨h1.cons₂ _, ?_, ?_, ?_⟩
                · intro e he x hx
                  rcases List.mem_cons.mp he with rfl | he'
                  · rw [hidsE_tid] at hx
                    rw [hids_orig]
                    exact removeGroups_subset gs _ x hx
                  · have her : e ∈ rest := h1.subset he'
                    rw [← hids2 e her]
                    exact h2 e he' x hx
                · rw [DisjointOn, List.pairwise_cons]
                  refine ⟨?_, h3⟩
                  intro e2 he2
                  have her : e2 ∈ rest := h1.subset he2
                  rw [hidsE_tid]
                  refine idsIntersect_false_mono (hd1 e2 her) ?_ ?_
                  · rw [hids_orig]
                    exact fun x hx => removeGroups_subset gs _ x hx
                  · intro x hx
                    rw [← hids2 e2 her]
                    exact h2 e2 he2 x hx
                · intro k hks
                  have hktid : tid ≠ k := hks (tid, rid) (List.mem_cons_self _ _)
                  rw [h4 k (fun e2 he => hks e2 (List.mem_cons_of_mem _ he))]
                  exact alookup_aupdate_ne _ _ _ _ hktid
          | false =>
            by_cases hlen : gs.length = 1
            · rw [addLoop_cons_singleton htk hint heqq hlen] at herr
              obtain ⟨h1, h2, h3, h4⟩ :=
                ih tgts rnds es2 tgts2 rnds2 hkeys' hdisj' herr
              exact ⟨h1.cons _, h2, h3,
                fun k hks => h4 k (fun e2 he => hks e2 (List.mem_cons_of_mem _ he))⟩
            · rw [addLoop_cons_throw htk hint heqq hlen] at herr
              simp only [Except.error.injEq, Prod.mk.injEq] at herr
              obtain ⟨hes2, htg2, hrn2⟩ := herr
              subst hes2 htg2 hrn2
              refine ⟨List.Sublist.refl _, fun e _ x hx => hx, ?_, fun k _ => rfl⟩
              rw [DisjointOn, List.pairwise_cons]
              exact ⟨hd1, hdisj'⟩

/-- If the loop reaches the insertion point, the surviving entries are a
sub-plan of the original; their id sets shrank, are now disjoint from the
incoming container, and are still pairwise disjoint; targets of ids outside
the plan keys, targets whose container is id-set-equal to the incoming one,
and renderables outside the plan are untouched. -/
lemma addLoop_ok_disjoint (inIds : List Int) :
    ∀ (es : List (Nat × Nat)) (tgts : List (Nat × TargetObj))
      (rnds : List (Nat × Int)) (es2 : List (Nat × Nat))
      (tgts2 : List (Nat × TargetObj)) (rnds2 : List (Nat × Int)),
    List.Pairwise (fun a b : Nat × Nat => a.1 ≠ b.1) es →
    DisjointOn tgts es →
    addLoop inIds es tgts rnds = .ok (es2, tgts2, rnds2) →
    es2.Sublist es ∧
    (∀ e ∈ es2, ∀ x ∈ entryIds tgts2 e.1, x ∈ entryIds tgts e.1) ∧
    (∀ e ∈ es2, idsIntersect (entryIds tgts2 e.1) inIds = false) ∧
    DisjointOn tgts2 es2 ∧
    (∀ k, (∀ e ∈ es, e.1 ≠ k) → alookup k tgts2 = alookup k tgts) ∧
    (∀ k m2 g, alookup k tgts = some (.container m2 g) →
      idSetEq (groupIds g) inIds = true → alookup k tgts2 = some (.container m2 g)) ∧
    (∀ r2, (∀ e ∈ es, e.2 ≠ r2) → alookup r2 rnds2 = alookup r2 rnds) := by
  intro es
  induction es with
  | nil =>
    intro tgts rnds es2 tgts2 rnds2 _ _ hok
    simp only [addLoop, Except.ok.injEq, Prod.mk.injEq] at hok
    obtain ⟨hes2, htg2, hrn2⟩ := hok
    subst hes2 htg2 hrn2
    exact ⟨List.Sublist.refl _, by simp, by simp, List.Pairwise.nil,
      fun _ _ => rfl, fun _ _ _ hk _ => hk, fun _ _ => rfl⟩
  | cons e rest ih =>
    intro tgts rnds es2 tgts2 rnds2 hkeys hdisj hok
    obtain ⟨tid, rid⟩ := e
    rw [List.pairwise_cons] at hkeys
    obtain ⟨hk1, hkeys'⟩ := hkeys
    rw [DisjointOn, List.pairwise_cons] at hdisj
    obtain ⟨hd1, hdisj'⟩ := hdisj
    have clean_case :
        idsIntersect (entryIds tgts tid) inIds = false →
        addLoop inIds ((tid, rid) :: rest) tgts rnds =
          consResult (tid, rid) (addLoop inIds rest tgts rnds) →
        es2.Sublist ((tid, rid) :: rest) ∧
        (∀ e ∈ es2, ∀ x ∈ entryIds tgts2 e.1, x ∈ entryIds tgts e.1) ∧
        (∀ e ∈ es2, idsIntersect (entryIds tgts2 e.1) inIds = false) ∧
        DisjointOn tgts2 es2 ∧
        (∀ k, (∀ e ∈ (tid, rid) :: rest, e.1 ≠ k) →
          alookup k tgts2 = alookup k tgts) ∧
        (∀ k m2 g, alookup k tgts = some (.container m2 g) →
          idSetEq (groupIds g) inIds = true →
          alookup k tgts2 = some (.container m2 g)) ∧
        (∀ r2, (∀ e ∈ (tid, rid) :: rest, e.2 ≠ r2) →
          alookup r2 rnds2 = alookup r2 rnds) := by
      intro hclean hstep
      rw [hstep] at hok
      cases hrec : addLoop inIds rest tgts rnds with
      | error x =>
        obtain ⟨a, b, c⟩ := x
        rw [hrec] at hok
        simp [consResult] at hok
      | ok x =>
        obtain ⟨esO, tgtsO, rndsO⟩ := x
        rw [hrec] at hok
        simp only [consResult, Except.ok.injEq, Prod.mk.injEq] at hok
        obtain ⟨hes2, htg2, hrn2⟩ := hok
        subst hes2 htg2 hrn2
        obtain ⟨h1, h2, h3, h4, h5, h6, h7⟩ :=
          ih tgts rnds esO tgtsO rndsO hkeys' hdisj' hrec
        have hframe_tid : alookup tid tgtsO = alookup tid tgts :=
          h5 tid (fun e2 he => (hk1 e2 he).symm)
        have hids_tid : entryIds tgtsO tid = entryIds tgts tid :=
          entryIds_congr hframe_tid
        refine ⟨h1.cons₂ _, ?_, ?_, ?_, ?_, h6, ?_⟩
        · intro e he x hx
          rcases List.mem_cons.mp he with rfl | he'
          · rwa [hids_tid] at hx
          · exact h2 e he' x hx
        · intro e he
          rcases List.mem_cons.mp he with rfl | he'
          · rwa [hids_tid]
          · exact h3 e he'
        · rw [DisjointOn, List.pairwise_cons]
          refine ⟨?_, h4⟩
          intro e2 he2
          rw [hids_tid]
          exact idsIntersect_false_mono (hd1 e2 (h1.subset he2))
            (fun x hx => hx) (fun x hx => h2 e2 he2 x hx)
        · intro k hks
          exact h5 k (fun e2 he => hks e2 (List.mem_cons_of_mem _ he))
        · intro r2 hrs
          exact h7 r2 (fun e2 he => hrs e2 (List.mem_cons_of_mem _ he))
    cases htk : targetAt tgts tid with
    | plain n =>
      exact clean_case
        (by rw [entryIds_of_plain htk]; exact idsIntersect_nil_left inIds)
        (addLoop_cons_clean
          (by rw [entryIds_of_plain htk]; exact idsIntersect_nil_left inIds))
    | container m gs =>
      cases hint : idsIntersect (groupIds gs) inIds with
      | false =>
        exact clean_case (by rwa [entryIds_of_container htk])
          (addLoop_cons_clean (by rwa [entryIds_of_container htk]))
      | true =>
        cases heqq : idSetEq (groupIds gs) inIds with
        | true =>
          rw [addLoop_cons_beach htk hint heqq] at hok
          simp only [Except.ok.injEq, Prod.mk.injEq] at hok
          obtain ⟨hes2, htg2, hrn2⟩ := hok
          subst hes2 htg2 hrn2
          have hids_tid : entryIds tgts tid = groupIds gs :=
            entryIds_of_container htk
          refine ⟨(List.Sublist.refl _).cons _, fun e _ x hx => hx, ?_, hdisj',
            fun _ _ => rfl, fun _ _ _ hk _ => hk, fun _ _ => rfl⟩
          intro e2 he2
          have hd := hd1 e2 he2
          rw [hids_tid] at hd
          rw [idsIntersect_comm] at hd
          exact idsIntersect_false_of_idSetEq hd heqq
        | false =>
          cases m with
          | true =>
            rw [addLoop_cons_mut htk hint heqq] at hok
            have halk : alookup tid tgts = some (.container true gs) :=
              targetAt_eq_some htk
            set gs' := removeGroups gs (idsInter (groupIds gs) inIds) with hgs'
            set tgts' := aupdate tid (TargetObj.container true gs') tgts
              with htgts'
            have hframe2 : ∀ e2 ∈ rest, alookup e2.1 tgts' = alookup e2.1 tgts :=
              fun e2 he => alookup_aupdate_ne _ _ _ _ (hk1 e2 he)
            have hids2 : ∀ e2 ∈ rest, entryIds tgts' e2.1 = entryIds tgts e2.1 :=
              fun e2 he => entryIds_congr (hframe2 e2 he)
            have hdisj'' : DisjointOn tgts' rest := by
              refine List.Pairwise.imp_of_mem ?_ hdisj'
              intro a b ha hb hr
              rw [hids2 a ha, hids2 b hb]
              exact hr
            have hlk' : alookup tid tgts' = some (.container true gs') :=
              alookup_aupdate_self _ _ _ _ halk
            have hids_orig : entryIds tgts tid = groupIds gs :=
              entryIds_of_container htk
            have hkeq : ∀ (k : Nat) (m2 : Bool) (g : List Group),
                alookup k tgts = some (.container m2 g) →
                idSetEq (groupIds g) inIds = true → k ≠ tid := by
              intro k m2 g hk hq hkt
              subst hkt
              have hsame := halk.symm.trans hk
              simp only [Option.some.injEq, TargetObj.container.injEq] at hsame
              obtain ⟨_, hg⟩ := hsame
              rw [← hg] at hq
              rw [hq] at heqq
              exact Bool.noConfusion heqq
            split at hok
            · obtain ⟨h1, h2, h3, h4, h5, h6, h7⟩ :=
                ih tgts' rnds es2 tgts2 rnds2 hkeys' hdisj'' hok
              refine ⟨h1.cons _, ?_, h3, h4, ?_, ?_, ?_⟩
              · intro e he x hx
                have he' : e ∈ rest := h1.subset he
                rw [← hids2 e he']
                exact h2 e he x hx
              · intro k hks
                have hktid : tid ≠ k := hks (tid, rid) (List.mem_cons_self _ _)
                rw [h5 k (fun e2 he => hks e2 (List.mem_cons_of_mem _ he))]
                exact alookup_aupdate_ne _ _ _ _ hktid
              · intro k m2 g hk hq
                have hkt : k ≠ tid := hkeq k m2 g hk hq
                refine h6 k m2 g ?_ hq
                rw [alookup_aupdate_ne _ _ _ _ (fun h => hkt h.symm)]
                exact hk
              · intro r2 hrs
                exact h7 r2 (fun e2 he => hrs e2 (List.mem_cons_of_mem _ he))
            · cases hrec : addLoop inIds rest tgts'
                (aupdate rid (TargetObj.container true gs').numPixels rnds) with
              | error x =>
                obtain ⟨a, b, c⟩ := x
                rw [hrec] at hok
                simp [consResult] at hok
              | ok x =>
                obtain ⟨esO, tgtsO, rndsO⟩ := x
                rw [hrec] at hok
                simp only [consResult, Except.ok.injEq, Prod.mk.injEq] at hok
                obtain ⟨hes2, htg2, hrn2⟩ := hok
                subst hes2 htg2 hrn2
                obtain ⟨h1, h2, h3, h4, h5, h6, h7⟩ :=
                  ih tgts' _ esO tgtsO rndsO hkeys' hdisj'' hrec
                have hframe_tid : alookup tid tgtsO = some (.container true gs') := by
                  rw [h5 tid (fun e2 he => (hk1 e2 he).symm)]
                  exact hlk'
                have hidsO_tid : entryIds tgtsO tid = groupIds gs' := by
                  simp [entryIds, targetAt, hframe_tid]
                refine ⟨h1.cons₂ _, ?_, ?_, ?_, ?_, ?_, ?_⟩
                · intro e he x hx
                  rcases List.mem_cons.mp he with rfl | he'
                  · rw [hidsO_tid] at hx
                    rw [hids_orig]
                    exact removeGroups_subset gs _ x hx
                  · have her : e ∈ rest := h1.subset he'
                    rw [← hids2 e her]
                    exact h2 e he' x hx
                · intro e he
                  rcases List.mem_cons.mp he with rfl | he'
                  · rw [hidsO_tid, hgs']
                    exact removeGroups_inter_disjoint gs inIds
                  · exact h3 e he'
                · rw [DisjointOn, List.pairwise_cons]
                  refine ⟨?_, h4⟩
                  intro e2 he2
                  have her : e2 ∈ rest := h1.subset he2
                  rw [hidsO_tid]
                  refine idsIntersect_false_mono (hd1 e2 her) ?_ ?_
                  · rw [hids_orig]
                    exact fun x hx => removeGroups_subset gs _ x hx
                  · intro x hx
                    rw [← hids2 e2 her]
                    exact h2 e2 he2 x hx
                · intro k hks
                  have hktid : tid ≠ k := hks (tid, rid) (List.mem_cons_self _ _)
                  rw [h5 k (fun e2 he => hks e2 (List.mem_cons_of_mem _ he))]
                  exact alookup_aupdate_ne _ _ _ _ hktid
                · intro k m2 g hk hq
                  have hkt : k ≠ tid := hkeq k m2 g hk hq
                  refine h6 k m2 g ?_ hq
                  rw [alookup_aupdate_ne _ _ _ _ (fun h => hkt h.symm)]
                  exact hk
                · intro r2 hrs
                  have hrid : rid ≠ r2 := hrs (tid, rid) (List.mem_cons_self _ _)
                  rw [h7 r2 (fun e2 he => hrs e2 (List.mem_cons_of_mem _ he))]
                  exact alookup_aupdate_ne _ _ _ _ hrid
          | false =>
            by_cases hlen : gs.length = 1
            · rw [addLoop_cons_singleton htk hint heqq hlen] at hok
              obtain ⟨h1, h2, h3, h4, h5, h6, h7⟩ :=
                ih tgts rnds es2 tgts2 rnds2 hkeys' hdisj' hok
              exact ⟨h1.cons _, h2, h3, h4,
                fun k hks => h5 k (fun e2 he => hks e2 (List.mem_cons_of_mem _ he)),
                h6,
                fun r2 hrs => h7 r2 (fun e2 he => hrs e2 (List.mem_cons_of_mem _ he))⟩
            · rw [addLoop_cons_throw htk hint heqq hlen] at hok
              simp at hok

lemma sortedKeys_iff (es : List (Nat × Nat)) :
    sortedKeys es = true ↔ List.Pairwise (fun a b : Nat × Nat => a.1 < b.1) es := by
  induction es with
  | nil => simp [sortedKeys]
  | cons e rest ih =>
    simp [sortedKeys, List.pairwise_cons, List.all_eq_true, ih.symm]

lemma nodupRids_iff (es : List (Nat × Nat)) :
    nodupRids es = true ↔ List.Pairwise (fun a b : Nat × Nat => a.2 ≠ b.2) es := by
  induction es with
  | nil => simp [nodupRids]
  | cons e rest ih =>
    simp [nodupRids, List.pairwise_cons, List.all_eq_true, ih.symm]

lemma alookup_aupdate_isSome {α : Type} (k k2 : Nat) (v : α) (l : List (Nat × α)) :
    (alookup k2 (aupdate k v l)).isSome = (alookup k2 l).isSome := by
  by_cases hk : k = k2
  · subst hk
    cases hl : alookup k l with
    | none =>
      induction l with
      | nil => rfl
      | cons e rest ih =>
        obtain ⟨k', v'⟩ := e
        by_cases hk' : k = k'
        · subst hk'
          simp [alookup] at hl
        · simp only [alookup, if_neg hk'] at hl
          simp only [aupdate, if_neg hk', alookup, if_neg hk']
          exact ih hl
    | some v0 => simp [alookup_aupdate_self _ _ _ _ hl, hl]
  · rw [alookup_aupdate_ne _ _ _ _ hk]

/-- `std::map` insertion preserves strictly-increasing keys. -/
lemma planInsert_sorted {k v : Nat} {es : List (Nat × Nat)}
    (h : List.Pairwise (fun a b : Nat × Nat => a.1 < b.1) es) :
    List.Pairwise (fun a b : Nat × Nat => a.1 < b.1) (planInsert k v es) := by
  induction es with
  | nil => simp [planInsert]
  | cons e rest ih =>
    obtain ⟨k', v'⟩ := e
    rw [List.pairwise_cons] at h
    obtain ⟨h1, h2⟩ := h
    simp only [planInsert]
    split
    · rw [List.pairwise_cons]
      refine ⟨?_, List.pairwise_cons.mpr ⟨h1, h2⟩⟩
      intro e2 he2
      rcases List.mem_cons.mp he2 with rfl | he2'
      · assumption
      · have := h1 e2 he2'
        omega
    · split
      · rw [List.pairwise_cons]
        refine ⟨?_, h2⟩
        intro e2 he2
        have := h1 e2 he2
        omega
      · rw [List.pairwise_cons]
        refine ⟨?_, ih h2⟩
        intro e2 he2
        rcases mem_planInsert he2 with rfl | he2'
        · simp only []
          omega
        · exact h1 e2 he2'

/-- `std::map` insertion preserves a pairwise relation when the inserted pair
relates to every kept entry. -/
lemma pairwise_planInsert {R : (Nat × Nat) → (Nat × Nat) → Prop} {k v : Nat}
    {es : List (Nat × Nat)}
    (hsorted : List.Pairwise (fun a b : Nat × Nat => a.1 < b.1) es)
    (h1 : ∀ e ∈ es, e.1 ≠ k → R (k, v) e ∧ R e (k, v))
    (hp : List.Pairwise R es) : List.Pairwise R (planInsert k v es) := by
  induction es with
  | nil => simp [planInsert]
  | cons e rest ih =>
    obtain ⟨k', v'⟩ := e
    rw [List.pairwise_cons] at hsorted hp
    obtain ⟨hs1, hs2⟩ := hsorted
    obtain ⟨hp1, hp2⟩ := hp
    simp only [planInsert]
    split
    · rw [List.pairwise_cons]
      constructor
      · intro e2 he2
        rcases List.mem_cons.mp he2 with rfl | he2'
        · exact (h1 (k', v') (List.mem_cons_self _ _) (by omega)).1
        · have hlt := hs1 e2 he2'
          exact (h1 e2 (List.mem_cons_of_mem _ he2') (by omega)).1
      · exact List.pairwise_cons.mpr ⟨hp1, hp2⟩
    · split
      · rw [List.pairwise_cons]
        refine ⟨?_, hp2⟩
        intro e2 he2
        have hlt := hs1 e2 he2
        exact (h1 e2 (List.mem_cons_of_mem _ he2) (by omega)).1
      · rw [List.pairwise_cons]
        constructor
        · intro e2 he2
          rcases mem_planInsert he2 with rfl | he2'
          · exact (h1 (k', v') (List.mem_cons_self _ _) (by omega)).2
          · exact hp1 e2 he2'
        · exact ih hs2 (fun e2 he2 => h1 e2 (List.mem_cons_of_mem _ he2)) hp2

/-- Second pass of `add` over a plan whose entries either are the freshly
inserted target itself or no longer conflict with it: the loop erases exactly
the target's own entry (via the id-set-equality branch) and touches nothing
else. -/
lemma addLoop_self_or_clean {inIds : List Int} {tgts : List (Nat × TargetObj)}
    {rnds : List (Nat × Int)} {tid : Nat} {m : Bool} {gs : List Group}
    (hlk : alookup tid tgts = some (.container m gs))
    (hids : groupIds gs = inIds) (hne : inIds ≠ []) :
    ∀ es, (∀ e ∈ es, e.1 = tid ∨ idsIntersect (entryIds tgts e.1) inIds = false) →
      addLoop inIds es tgts rnds =
        .ok (es.eraseP (fun e => e.1 == tid), tgts, rnds) := by
  intro es
  induction es with
  | nil => intro _; simp [addLoop, List.eraseP]
  | cons e rest ih =>
    intro h
    obtain ⟨k, r⟩ := e
    by_cases hk : k = tid
    · subst hk
      have htk : targetAt tgts k = .container m gs := by
        simp [targetAt, hlk]
      rw [addLoop_cons_beach htk (by rw [hids]; exact idsIntersect_self hne)
        (by rw [hids]; exact idSetEq_refl inIds)]
      rw [List.eraseP_cons]
      simp
    · have hcl : idsIntersect (entryIds tgts k) inIds = false := by
        rcases h (k, r) (List.mem_cons_self _ _) with h' | h'
        · exact absurd h' hk
        · exact h'
      rw [addLoop_cons_clean hcl,
        ih (fun e2 he => h e2 (List.mem_cons_of_mem _ he)), List.eraseP_cons]
      simp only [show ((k, r).1 == tid) = false by simpa using hk, cond_false,
        consResult]

/-- One `Pipeline::add` call — successful or not — keeps the plan keys
strictly sorted and the GroupContainer targets of distinct entries pairwise
disjoint. -/
lemma add_preserves_sorted_disjoint (st : Pipeline) (r t : Option Nat)
    (hsort : List.Pairwise (fun a b : Nat × Nat => a.1 < b.1) st.plan)
    (hdisj : DisjointOn st.targets st.plan) :
    List.Pairwise (fun a b : Nat × Nat => a.1 < b.1) (Pipeline.add st r t).2.plan ∧
    DisjointOn (Pipeline.add st r t).2.targets (Pipeline.add st r t).2.plan := by
  have hkeys : List.Pairwise (fun a b : Nat × Nat => a.1 ≠ b.1) st.plan :=
    hsort.imp (fun h => by omega)
  match r, t with
  | none, _ => exact ⟨hsort, hdisj⟩
  | some rid, none => exact ⟨hsort, hdisj⟩
  | some rid, some tid =>
    cases htk : targetAt st.targets tid with
    | plain n =>
      simp only [Pipeline.add, htk]
      refine ⟨planInsert_sorted hsort, ?_⟩
      refine pairwise_planInsert hsort ?_ hdisj
      intro e _ _
      constructor
      · rw [entryIds_of_plain htk]
        exact idsIntersect_nil_left _
      · rw [entryIds_of_plain htk]
        exact idsIntersect_nil_right _
    | container m gs =>
      cases hloop : addLoop (groupIds gs) st.plan st.targets st.renders with
      | ok x =>
        obtain ⟨es2, tgts2, rnds2⟩ := x
        simp only [Pipeline.add, htk, hloop]
        obtain ⟨h1, h2, h3, h4, h5, h6, h7⟩ :=
          addLoop_ok_disjoint (groupIds gs) st.plan st.targets st.renders
            es2 tgts2 rnds2 hkeys hdisj hloop
        have hsort2 : List.Pairwise (fun a b : Nat × Nat => a.1 < b.1) es2 :=
          hsort.sublist h1
        have halk : alookup tid st.targets = some (.container m gs) :=
          targetAt_eq_some htk
        have htid2 : alookup tid tgts2 = some (.container m gs) :=
          h6 tid m gs halk (idSetEq_refl _)
        have hids2 : entryIds tgts2 tid = groupIds gs := by
          simp [entryIds, targetAt, htid2]
        refine ⟨planInsert_sorted hsort2, ?_⟩
        refine pairwise_planInsert hsort2 ?_ h4
        intro e he _
        constructor
        · show idsIntersect (entryIds tgts2 tid) (entryIds tgts2 e.1) = false
          rw [hids2, idsIntersect_comm]
          exact h3 e he
        · show idsIntersect (entryIds tgts2 e.1) (entryIds tgts2 tid) = false
          rw [hids2]
          exact h3 e he
      | error x =>
        obtain ⟨es2, tgts2, rnds2⟩ := x
        simp only [Pipeline.add, htk, hloop]
        obtain ⟨h1, h2, h3, h4⟩ :=
          addLoop_error_disjoint (groupIds gs) st.plan st.targets st.renders
            es2 tgts2 rnds2 hkeys hdisj hloop
        exact ⟨hsort.sublist h1, h3⟩

/-- C5: starting from a plan in which no group id appears in two distinct
GroupContainer targets (and whose map keys are well formed), after any
sequence of `add` calls — in particular any sequence of successful ones — no
group id appears in two distinct GroupContainer targets of the plan. -/
theorem addSeq_preserves_disjointness (ops : List (Option Nat × Option Nat))
    (st : Pipeline)
    (hsort : sortedKeys st.plan = true)
    (hdisj : plansDisjoint st.targets st.plan = true) :
    plansDisjoint (addSeq st ops).targets (addSeq st ops).plan = true ∧
    sortedKeys (addSeq st ops).plan = true := by
  induction ops generalizing st with
  | nil => exact ⟨hdisj, hsort⟩
  | cons op rest ih =>
    obtain ⟨r, t⟩ := op
    have h := add_preserves_sorted_disjoint st r t
      ((sortedKeys_iff _).mp hsort) ((plansDisjoint_iff _ _).mp hdisj)
    exact ih (Pipeline.add st r t).2 ((sortedKeys_iff _).mpr h.1)
      ((plansDisjoint_iff _ _).mpr h.2)

/-- Witness state for C5 and C6: a disjoint one-entry plan with a conflicting
container 2 about to be added. -/
def c5wSt : Pipeline :=
  ⟨[(1, 10)],
   [(1, .container true [⟨1, 0, 4⟩, ⟨2, 5, 9⟩]), (2, .container true [⟨2, 5, 9⟩])],
   [(10, 10), (11, 5)]⟩

/-- Witness for `addSeq_preserves_disjointness`: one conflict-resolving add
followed by one failing (null-renderable) add. -/
theorem addSeq_preserves_disjointness_witness :
    (sortedKeys c5wSt.plan = true ∧ plansDisjoint c5wSt.targets c5wSt.plan = true) ∧
    (plansDisjoint (addSeq c5wSt [(some 11, some 2), (none, some 2)]).targets
        (addSeq c5wSt [(some 11, some 2), (none, some 2)]).plan = true ∧
      sortedKeys (addSeq c5wSt [(some 11, some 2), (none, some 2)]).plan = true) :=
  ⟨⟨by decide, by decide⟩,
    addSeq_preserves_disjointness [(some 11, some 2), (none, some 2)] c5wSt
      (by decide) (by decide)⟩

/-- C6 amended: under the disjointness invariant (no group id in two distinct
GroupContainer targets, plan keys well formed), a successful `add(r, t)`
followed by the same `add(r, t)` yields the same Plan: the second call leaves
the state of the first. -/
theorem add_idempotent_under_disjointness (st st1 : Pipeline) (rid tid : Nat)
    (hsort : sortedKeys st.plan = true)
    (hdisj : plansDisjoint st.targets st.plan = true)
    (hadd : Pipeline.add st (some rid) (some tid) = (none, st1)) :
    Pipeline.add st1 (some rid) (some tid) = (none, st1) := by
  have hsortP := (sortedKeys_iff _).mp hsort
  have hdisjP := (plansDisjoint_iff _ _).mp hdisj
  have hkeys : List.Pairwise (fun a b : Nat × Nat => a.1 ≠ b.1) st.plan :=
    hsortP.imp (fun h => by omega)
  cases htk : targetAt st.targets tid with
  | plain n =>
    simp only [Pipeline.add, htk] at hadd
    injection hadd with h1 h2
    subst h2
    have htk1 : targetAt st.targets tid = TargetObj.plain n := htk
    simp only [Pipeline.add, htk1]
    rw [planInsert_idem]
  | container m gs =>
    cases hloop : addLoop (groupIds gs) st.plan st.targets st.renders with
    | error x =>
      obtain ⟨a, b, c⟩ := x
      simp only [Pipeline.add, htk, hloop] at hadd
      exact absurd hadd (by simp)
    | ok x =>
      obtain ⟨es2, tgts2, rnds2⟩ := x
      simp only [Pipeline.add, htk, hloop] at hadd
      injection hadd with h1 h2
      subst h2
      obtain ⟨hs1, hs2, hs3, hs4, hs5, hs6, hs7⟩ :=
        addLoop_ok_disjoint (groupIds gs) st.plan st.targets st.renders
          es2 tgts2 rnds2 hkeys hdisjP hloop
      have halk : alookup tid st.targets = some (.container m gs) :=
        targetAt_eq_some htk
      have htid2 : alookup tid tgts2 = some (.container m gs) :=
        hs6 tid m gs halk (idSetEq_refl _)
      have htk1 : targetAt tgts2 tid = TargetObj.container m gs := by
        simp [targetAt, htid2]
      have hids2 : entryIds tgts2 tid = groupIds gs := by
        simp [entryIds, targetAt, htid2]
      by_cases hne : groupIds gs = []
      · have hall : ∀ e ∈ planInsert tid rid es2,
            idsIntersect (entryIds tgts2 e.1) (groupIds gs) = false := by
          intro e _
          rw [hne]
          exact idsIntersect_nil_right _
        have hloop2 : addLoop (groupIds gs) (planInsert tid rid es2) tgts2 rnds2 =
            .ok (planInsert tid rid es2, tgts2, rnds2) := by
          have h := @addLoop_skips_clean (groupIds gs) tgts2 rnds2
            (planInsert tid rid es2) hall []
          rw [List.append_nil] at h
          rw [h]
          simp [addLoop, prependResult]
        simp only [Pipeline.add, htk1, hloop2]
        rw [planInsert_idem]
      · have hkeys2 : ∀ e ∈ es2, e.1 ≠ tid := by
          intro e he hket
          have hcl := hs3 e he
          rw [hket, hids2, idsIntersect_self hne] at hcl
          exact Bool.noConfusion hcl
        have hprop : ∀ e ∈ planInsert tid rid es2,
            e.1 = tid ∨ idsIntersect (entryIds tgts2 e.1) (groupIds gs) = false := by
          intro e he
          rcases mem_planInsert he with rfl | he'
          · exact Or.inl rfl
          · exact Or.inr (hs3 e he')
        have hloop2 := @addLoop_self_or_clean (groupIds gs) tgts2 rnds2 tid m gs
          htid2 rfl hne (planInsert tid rid es2) hprop
        rw [eraseP_planInsert hkeys2] at hloop2
        simp only [Pipeline.add, htk1, hloop2]

/-- The state one successful `add(11, 2)` on `c5wSt` produces: group 2
stripped from entry 1, renderable 10 resized, new entry inserted. -/
def c6wMid : Pipeline :=
  ⟨[(1, 10), (2, 11)],
   [(1, .container true [⟨1, 0, 4⟩]), (2, .container true [⟨2, 5, 9⟩])],
   [(10, 5), (11, 5)]⟩

/-- Witness for `add_idempotent_under_disjointness` on `c5wSt`. -/
theorem add_idempotent_under_disjointness_witness :
    (sortedKeys c5wSt.plan = true ∧ plansDisjoint c5wSt.targets c5wSt.plan = true ∧
      Pipeline.add c5wSt (some 11) (some 2) = (none, c6wMid)) ∧
    Pipeline.add c6wMid (some 11) (some 2) = (none, c6wMid) :=
  ⟨⟨by decide, by decide, by decide⟩,
    add_idempotent_under_disjointness c5wSt c6wMid 11 2 (by decide) (by decide)
      (by decide)⟩

lemma sizeCoherent_iff (st : Pipeline) :
    sizeCoherent st = true ↔
      ∀ e ∈ st.plan, renderSize st.renders e.2 = (targetAt st.targets e.1).numPixels := by
  simp [sizeCoherent, List.all_eq_true]

/-- If the loop reaches the insertion point and the entries reference
pairwise-distinct targets and renderables (all present in the heaps), size
coherence of the surviving entries is preserved — conflict fixes resize the
renderable to the shrunken target — and heap cells outside the plan (and
targets id-set-equal to the incoming container) are untouched. -/
lemma addLoop_ok_coherent (inIds : List Int) :
    ∀ (es : List (Nat × Nat)) (tgts : List (Nat × TargetObj))
      (rnds : List (Nat × Int)) (es2 : List (Nat × Nat))
      (tgts2 : List (Nat × TargetObj)) (rnds2 : List (Nat × Int)),
    List.Pairwise (fun a b : Nat × Nat => a.1 ≠ b.1) es →
    List.Pairwise (fun a b : Nat × Nat => a.2 ≠ b.2) es →
    (∀ e ∈ es, (alookup e.2 rnds).isSome = true) →
    (∀ e ∈ es, renderSize rnds e.2 = (targetAt tgts e.1).numPixels) →
    addLoop inIds es tgts rnds = .ok (es2, tgts2, rnds2) →
    (∀ e ∈ es2, renderSize rnds2 e.2 = (targetAt tgts2 e.1).numPixels) ∧
    (∀ r2, (∀ e ∈ es, e.2 ≠ r2) → alookup r2 rnds2 = alookup r2 rnds) ∧
    (∀ k, (∀ e ∈ es, e.1 ≠ k) → alookup k tgts2 = alookup k tgts) ∧
    (∀ k m2 g, alookup k tgts = some (.container m2 g) →
      idSetEq (groupIds g) inIds = true → alookup k tgts2 = some (.container m2 g)) := by
  intro es
  induction es with
  | nil =>
    intro tgts rnds es2 tgts2 rnds2 _ _ _ _ hok
    simp only [addLoop, Except.ok.injEq, Prod.mk.injEq] at hok
    obtain ⟨hes2, htg2, hrn2⟩ := hok
    subst hes2 htg2 hrn2
    exact ⟨by simp, fun _ _ => rfl, fun _ _ => rfl, fun _ _ _ hk _ => hk⟩
  | cons e rest ih =>
    intro tgts rnds es2 tgts2 rnds2 hkeys hrids hpres hcoh hok
    obtain ⟨tid, rid⟩ := e
    rw [List.pairwise_cons] at hkeys hrids
    obtain ⟨hk1, hkeys'⟩ := hkeys
    obtain ⟨hr1, hrids'⟩ := hrids
    have hpres' : ∀ e ∈ rest, (alookup e.2 rnds).isSome = true :=
      fun e he => hpres e (List.mem_cons_of_mem _ he)
    have hcoh' : ∀ e ∈ rest, renderSize rnds e.2 = (targetAt tgts e.1).numPixels :=
      fun e he => hcoh e (List.mem_cons_of_mem _ he)
    have clean_case :
        addLoop inIds ((tid, rid) :: rest) tgts rnds =
          consResult (tid, rid) (addLoop inIds rest tgts rnds) →
        (∀ e ∈ es2, renderSize rnds2 e.2 = (targetAt tgts2 e.1).numPixels) ∧
        (∀ r2, (∀ e ∈ (tid, rid) :: rest, e.2 ≠ r2) →
          alookup r2 rnds2 = alookup r2 rnds) ∧
        (∀ k, (∀ e ∈ (tid, rid) :: rest, e.1 ≠ k) →
          alookup k tgts2 = alookup k tgts) ∧
        (∀ k m2 g, alookup k tgts = some (.container m2 g) →
          idSetEq (groupIds g) inIds = true →
          alookup k tgts2 = some (.container m2 g)) := by
      intro hstep
      rw [hstep] at hok
      cases hrec : addLoop inIds rest tgts rnds with
      | error x =>
        obtain ⟨a, b, c⟩ := x
        rw [hrec] at hok
        simp [consResult] at hok
      | ok x =>
        obtain ⟨esO, tgtsO, rndsO⟩ := x
        rw [hrec] at hok
        simp only [consResult, Except.ok.injEq, Prod.mk.injEq] at hok
        obtain ⟨hes2, htg2, hrn2⟩ := hok
        subst hes2 htg2 hrn2
        obtain ⟨h1, h2, h3, h4⟩ :=
          ih tgts rnds esO tgtsO rndsO hkeys' hrids' hpres' hcoh' hrec
        have hframe_t : alookup tid tgtsO = alookup tid tgts :=
          h3 tid (fun e2 he => (hk1 e2 he).symm)
        have hframe_r : alookup rid rndsO = alookup rid rnds :=
          h2 rid (fun e2 he => (hr1 e2 he).symm)
        refine ⟨?_, ?_, ?_, h4⟩
        · intro e he
          rcases List.mem_cons.mp he with rfl | he'
          · show renderSize rndsO rid = (targetAt tgtsO tid).numPixels
            rw [renderSize, hframe_r, targetAt, hframe_t]
            exact hcoh (tid, rid) (List.mem_cons_self _ _)
          · exact h1 e he'
        · intro r2 hrs
          exact h2 r2 (fun e2 he => hrs e2 (List.mem_cons_of_mem _ he))
        · intro k hks
          exact h3 k (fun e2 he => hks e2 (List.mem_cons_of_mem _ he))
    cases htk : targetAt tgts tid with
    | plain n =>
      exact clean_case (addLoop_cons_clean
        (by rw [entryIds_of_plain htk]; exact idsIntersect_nil_left inIds))
    | container m gs =>
      cases hint : idsIntersect (groupIds gs) inIds with
      | false =>
        exact clean_case (addLoop_cons_clean
          (by rwa [entryIds_of_container htk]))
      | true =>
        cases heqq : idSetEq (groupIds gs) inIds with
        | true =>
          rw [addLoop_cons_beach htk hint heqq] at hok
          simp only [Except.ok.injEq, Prod.mk.injEq] at hok
          obtain ⟨hes2, htg2, hrn2⟩ := hok
          subst hes2 htg2 hrn2
          exact ⟨hcoh', fun _ _ => rfl, fun _ _ => rfl, fun _ _ _ hk _ => hk⟩
        | false =>
          cases m with
          | true =>
            rw [addLoop_cons_mut htk hint heqq] at hok
            have halk : alookup tid tgts = some (.container true gs) :=
              targetAt_eq_some htk
            set gs' := removeGroups gs (idsInter (groupIds gs) inIds) with hgs'
            set tgts' := aupdate tid (TargetObj.container true gs') tgts
              with htgts'
            have hframe2 : ∀ e2 ∈ rest, alookup e2.1 tgts' = alookup e2.1 tgts :=
              fun e2 he => alookup_aupdate_ne _ _ _ _ (hk1 e2 he)
            have hcoh'' : ∀ e2 ∈ rest,
                renderSize rnds e2.2 = (targetAt tgts' e2.1).numPixels := by
              intro e2 he
              rw [targetAt, hframe2 e2 he]
              exact hcoh' e2 he
            have hkeq : ∀ (k : Nat) (m2 : Bool) (g : List Group),
                alookup k tgts = some (.container m2 g) →
                idSetEq (groupIds g) inIds = true → k ≠ tid := by
              intro k m2 g hk hq hkt
              subst hkt
              have hsame := halk.symm.trans hk
              simp only [Option.some.injEq, TargetObj.container.injEq] at hsame
              obtain ⟨_, hg⟩ := hsame
              rw [← hg] at hq
              rw [hq] at heqq
              exact Bool.noConfusion heqq
            split at hok
            · obtain ⟨h1, h2, h3, h4⟩ :=
                ih tgts' rnds es2 tgts2 rnds2 hkeys' hrids' hpres' hcoh'' hok
              refine ⟨h1, ?_, ?_, ?_⟩
              · intro r2 hrs
                exact h2 r2 (fun e2 he => hrs e2 (List.mem_cons_of_mem _ he))
              · intro k hks
                have hktid : tid ≠ k := hks (tid, rid) (List.mem_cons_self _ _)
                rw [h3 k (fun e2 he => hks e2 (List.mem_cons_of_mem _ he))]
                exact alookup_aupdate_ne _ _ _ _ hktid
              · intro k m2 g hk hq
                have hkt : k ≠ tid := hkeq k m2 g hk hq
                refine h4 k m2 g ?_ hq
                rw [alookup_aupdate_ne _ _ _ _ (fun h => hkt h.symm)]
                exact hk
            · set np := (TargetObj.container true gs').numPixels with hnp
              set rnds' := aupdate rid np rnds with hrnds'
              obtain ⟨sz, hsz⟩ := Option.isSome_iff_exists.mp
                (hpres (tid, rid) (List.mem_cons_self _ _))
              have hlkr : alookup rid rnds' = some np :=
                alookup_aupdate_self _ _ _ _ hsz
              have hpres'' : ∀ e2 ∈ rest, (alookup e2.2 rnds').isSome = true := by
                intro e2 he
                rw [alookup_aupdate_isSome]
                exact hpres' e2 he
              have hcoh3 : ∀ e2 ∈ rest,
                  renderSize rnds' e2.2 = (targetAt tgts' e2.1).numPixels := by
                intro e2 he
                rw [renderSize, alookup_aupdate_ne _ _ _ _ (hr1 e2 he)]
                exact hcoh'' e2 he
              cases hrec : addLoop inIds rest tgts' rnds' with
              | error x =>
                obtain ⟨a, b, c⟩ := x
                rw [hrec] at hok
                simp [consResult] at hok
              | ok x =>
                obtain ⟨esO, tgtsO, rndsO⟩ := x
                rw [hrec] at hok
                simp only [consResult, Except.ok.injEq, Prod.mk.injEq] at hok
                obtain ⟨hes2, htg2, hrn2⟩ := hok
                subst hes2 htg2 hrn2
                obtain ⟨h1, h2, h3, h4⟩ :=
                  ih tgts' rnds' esO tgtsO rndsO hkeys' hrids' hpres'' hcoh3 hrec
                have hlk' : alookup tid tgts' = some (.container true gs') :=
                  alookup_aupdate_self _ _ _ _ halk
                have hframe_t : alookup tid tgtsO = some (.container true gs') := by
                  rw [h3 tid (fun e2 he => (hk1 e2 he).symm)]
                  exact hlk'
                have hframe_r : alookup rid rndsO = some np := by
                  rw [h2 rid (fun e2 he => (hr1 e2 he).symm)]
                  exact hlkr
                refine ⟨?_, ?_, ?_, ?_⟩
                · intro e he
                  rcases List.mem_cons.mp he with rfl | he'
                  · show renderSize rndsO rid = (targetAt tgtsO tid).numPixels
                    rw [renderSize, hframe_r, targetAt, hframe_t]
                    rfl
                  · exact h1 e he'
                · intro r2 hrs
                  have hrid : rid ≠ r2 := hrs (tid, rid) (List.mem_cons_self _ _)
                  rw [h2 r2 (fun e2 he => hrs e2 (List.mem_cons_of_mem _ he))]
                  exact alookup_aupdate_ne _ _ _ _ hrid
                · intro k hks
                  have hktid : tid ≠ k := hks (tid, rid) (List.mem_cons_self _ _)
                  rw [h3 k (fun e2 he => hks e2 (List.mem_cons_of_mem _ he))]
                  exact alookup_aupdate_ne _ _ _ _ hktid
                · intro k m2 g hk hq
                  have hkt : k ≠ tid := hkeq k m2 g hk hq
                  refine h4 k m2 g ?_ hq
                  rw [alookup_aupdate_ne _ _ _ _ (fun h => hkt h.symm)]
                  exact hk
          | false =>
            by_cases hlen : gs.length = 1
            · rw [addLoop_cons_singleton htk hint heqq hlen] at hok
              obtain ⟨h1, h2, h3, h4⟩ :=
                ih tgts rnds es2 tgts2 rnds2 hkeys' hrids' hpres' hcoh' hok
              exact ⟨h1,
                fun r2 hrs => h2 r2 (fun e2 he => hrs e2 (List.mem_cons_of_mem _ he)),
                fun k hks => h3 k (fun e2 he => hks e2 (List.mem_cons_of_mem _ he)),
                h4⟩
            · rw [addLoop_cons_throw htk hint heqq hlen] at hok
              simp at hok

/-- C4 amended: if every plan entry satisfies `r.bufferSize() == t.numPixels()`,
the entries reference pairwise-distinct renderables none of which is the
incoming one, and the incoming renderable's buffer already matches the
incoming target's pixel count, then after a successful `add(r, t)` every plan
entry — including the newly inserted one — satisfies
`r.bufferSize() == t.numPixels()`. (Per the counterexample, the incoming-size
condition is necessary: `add` never resizes the renderable it inserts.) -/
theorem add_preserves_size_coherence (st st1 : Pipeline) (rid tid : Nat)
    (hsort : sortedKeys st.plan = true)
    (hrids : nodupRids st.plan = true)
    (hpres : ∀ e ∈ st.plan, (alookup e.2 st.renders).isSome = true)
    (hrfree : ∀ e ∈ st.plan, e.2 ≠ rid)
    (hcoh : sizeCoherent st = true)
    (hsize : renderSize st.renders rid = (targetAt st.targets tid).numPixels)
    (hadd : Pipeline.add st (some rid) (some tid) = (none, st1)) :
    sizeCoherent st1 = true := by
  have hkeys : List.Pairwise (fun a b : Nat × Nat => a.1 ≠ b.1) st.plan :=
    ((sortedKeys_iff _).mp hsort).imp (fun h => by omega)
  have hridsP := (nodupRids_iff _).mp hrids
  have hcohP := (sizeCoherent_iff _).mp hcoh
  cases htk : targetAt st.targets tid with
  | plain n =>
    simp only [Pipeline.add, htk] at hadd
    injection hadd with h1 h2
    subst h2
    rw [sizeCoherent_iff]
    intro e he
    rcases mem_planInsert he with rfl | he'
    · show renderSize st.renders rid = (targetAt st.targets tid).numPixels
      exact hsize
    · exact hcohP e he'
  | container m gs =>
    cases hloop : addLoop (groupIds gs) st.plan st.targets st.renders with
    | error x =>
      obtain ⟨a, b, c⟩ := x
      simp only [Pipeline.add, htk, hloop] at hadd
      exact absurd hadd (by simp)
    | ok x =>
      obtain ⟨es2, tgts2, rnds2⟩ := x
      simp only [Pipeline.add, htk, hloop] at hadd
      injection hadd with h1 h2
      subst h2
      obtain ⟨h1c, h2c, h3c, h4c⟩ :=
        addLoop_ok_coherent (groupIds gs) st.plan st.targets st.renders
          es2 tgts2 rnds2 hkeys hridsP hpres hcohP hloop
      have halk : alookup tid st.targets = some (.container m gs) :=
        targetAt_eq_some htk
      have htid2 : alookup tid tgts2 = some (.container m gs) :=
        h4c tid m gs halk (idSetEq_refl _)
      have hr2 : alookup rid rnds2 = alookup rid st.renders :=
        h2c rid (fun e2 he => hrfree e2 he)
      rw [sizeCoherent_iff]
      intro e he
      rcases mem_planInsert he with rfl | he'
      · show renderSize rnds2 rid = (targetAt tgts2 tid).numPixels
        rw [renderSize, hr2, targetAt, htid2]
        rw [renderSize] at hsize
        rw [hsize, htk]
        simp
      · exact h1c e he'

/-- Witness for `add_preserves_size_coherence` on `c5wSt`: the mutable
conflict shrinks entry 1's target and resizes its renderable, and coherence
holds in the resulting state `c6wMid`. -/
theorem add_preserves_size_coherence_witness :
    (sortedKeys c5wSt.plan = true ∧ nodupRids c5wSt.plan = true ∧
      (∀ e ∈ c5wSt.plan, (alookup e.2 c5wSt.renders).isSome = true) ∧
      (∀ e ∈ c5wSt.plan, e.2 ≠ 11) ∧
      sizeCoherent c5wSt = true ∧
      renderSize c5wSt.renders 11 = (targetAt c5wSt.targets 2).numPixels ∧
      Pipeline.add c5wSt (some 11) (some 2) = (none, c6wMid)) ∧
    sizeCoherent c6wMid = true :=
  ⟨⟨by decide, by decide, by decide, by decide, by decide, by decide, by decide⟩,
    add_preserves_size_coherence c5wSt c6wMid 11 2 (by decide) (by decide)
      (by decide) (by decide) (by decide) (by decide) (by decide)⟩

end Render
